import Mathlib

/-!
Verification development for the TeamsFx V2→V3 project-migration core.

This file gives a shallow embedding, in Lean 4, of the parts of the
repository that the analysed claims are about:

* `src/packages/fx-core/src/core/middleware/projectMigratorV3.ts`
  (the core migration pipeline, its rollback wrapper and the six steps);
* `src/unnamed/part_000` (the debug-task migration sub-pipeline:
  `replaceInDependsOn`, `handleProvisionAndDeploy`, `migrateSetUpBot`);
* `src/packages/fx-core/src/component/generator/officeAddin/generator.ts`
  (the `getHost` host-detection function).

JavaScript/TypeScript constructs are translated as follows: JSON-like
values (the `comment-json` `CommentJSONValue`) become the inductive type
`JVal` (comments are irrelevant to the analysed claims and are dropped);
in-place mutation of objects and arrays becomes functional update;
`async` functions that can throw become functions returning
`Option ThrownV × State` (the thrown value together with the state at the
point of the throw); the filesystem becomes an explicit association list
of paths to contents plus a list of directories.

Functions of this repository that are only referenced by the analysed
sources but whose own code is not available (the `MigrationContext`
file operations, `generateLabel`, `updateLocalEnv`, `LocalCrypto`,
the settings loader, the app-yml generator and the state-file utilities)
are modelled from the specification; each such definition carries a doc
comment starting with `Modelled from the spec:`.
-/

/-- A JSON-like value, the embedding of `comment-json`'s
`CommentJSONValue`.  Comment annotations are dropped: none of the
analysed claims is about comment preservation.  Objects are ordered
association lists, mirroring key insertion order. -/
inductive JVal where
  | str (s : String)
  | num (n : Int)
  | bool (b : Bool)
  | null
  | arr (xs : List JVal)
  | obj (kvs : List (String × JVal))

/-- Property access `t[k]` on a JSON value: `some v` for an object with
the key present, `none` (JS `undefined`) otherwise. -/
def jget (t : JVal) (k : String) : Option JVal :=
  match t with
  | .obj kvs => List.lookup k kvs
  | _ => none

/-- Functional rendering of the assignment `t[k] = v` on an object
(replaces the binding, or appends it preserving insertion order). -/
def jset (t : JVal) (k : String) (v : JVal) : JVal :=
  match t with
  | .obj kvs =>
      if (List.lookup k kvs).isSome then
        .obj (kvs.map (fun e => if e.1 = k then (e.1, v) else e))
      else
        .obj (kvs ++ [(k, v)])
  | other => other

/-- Functional rendering of `delete t[k]` on an object. -/
def jdel (t : JVal) (k : String) : JVal :=
  match t with
  | .obj kvs => .obj (kvs.filter (fun e => e.1 != k))
  | other => other

/-- JavaScript truthiness of a JSON value (`""`, `0`, `false` and `null`
are falsy; objects and arrays are always truthy). -/
def jTruthy (v : JVal) : Bool :=
  match v with
  | .str s => s != ""
  | .num n => n != 0
  | .bool b => b
  | .null => false
  | .arr _ => true
  | .obj _ => true

/-- JS strict equality `v === label` between an arbitrary JSON value and
a string: true exactly for an equal string (an object or array is never
`===` to a string). -/
def jStrEq (v : JVal) (s : String) : Bool :=
  match v with
  | .str t => t == s
  | _ => false

/-- `isCommentObject` of the source utilities: the value is an object. -/
def isCommentObject (v : JVal) : Bool :=
  match v with
  | .obj _ => true
  | _ => false

/-- The per-task body of `replaceInDependsOn`
(projectMigrator sources `src/unnamed/part_000`, lines 968‑989): rewrite
one task's `dependsOn` references from `label` to `replacements`. -/
def replaceTaskDependsOn (label : String) (replacements : List String)
    (task : JVal) : JVal :=
  if isCommentObject task && (match jget task "dependsOn" with
                              | some dv => jTruthy dv
                              | none => false) then
    match jget task "dependsOn" with
    | some (.str s) =>
        if s == label then
          if replacements.length > 0 then
            jset task "dependsOn" (.arr (replacements.map JVal.str))
          else
            jdel task "dependsOn"
        else task
    | some (.arr xs) =>
        match xs.findIdx? (fun v => jStrEq v label) with
        | some i =>
            match replacements with
            | [] => jset task "dependsOn" (.arr (xs.eraseIdx i))
            | r0 :: _ =>
                if xs.any (fun v => jStrEq v r0) then
                  jset task "dependsOn" (.arr (xs.eraseIdx i))
                else
                  jset task "dependsOn"
                    (.arr (xs.take i ++ replacements.map JVal.str ++ xs.drop (i + 1)))
        | none => task
    | _ => task
  else task

/-- `replaceInDependsOn(label, tasks, ...replacements)`
(`src/unnamed/part_000`, lines 963‑990): every task in the list whose
`dependsOn` references `label` — as a bare string or as a member of an
array — is rewritten.  A bare-string reference becomes the array of
replacements (or the key is deleted when there are none); in an array the
reference is spliced out and the replacements are inserted in its place,
except that nothing is inserted when the array already contains the first
replacement (or when there are no replacements). -/
def replaceInDependsOn (label : String) (tasks : List JVal)
    (replacements : List String) : List JVal :=
  tasks.map (replaceTaskDependsOn label replacements)

/-! ## Office add-in generator: host detection -/

/-- The requirements object of an add-in manifest extension
(`devPreview.DevPreviewSchema`): an optional list of scopes. -/
structure AddinRequirements where
  scopes : List String

/-- One extension entry of an add-in manifest. -/
structure AddinExtension where
  requirements : Option AddinRequirements

/-- The part of the add-in manifest that `getHost` inspects. -/
structure AddinManifest where
  extensions : List AddinExtension

/-- The optional chain
`addinManifest.extensions?.[0].requirements?.scopes?.[0]`. -/
def firstScope (m : AddinManifest) : Option String :=
  match m.extensions.head? with
  | none => none
  | some ext =>
      match ext.requirements with
      | none => none
      | some req => req.scopes.head?

/-- `getHost` of
`src/packages/fx-core/src/component/generator/officeAddin/generator.ts`
(lines 179‑200): `host` is initialised to `"Outlook"`; the `switch` on the
first scope has a single live case `"mail"` assigning `"Outlook"` again
(all other cases are commented out), and `host` is returned. -/
def getHost (m : AddinManifest) : String :=
  let host := "Outlook"
  match firstScope m with
  | some "mail" => "Outlook"
  | _ => host

/-! ## Filesystem and migration context -/

/-- A snapshot of the project tree: files as an association list from
relative (slash-separated) paths to text contents, plus the set of
directory paths that exist.  A directory exists only when listed in
`dirs` (the model registers directories explicitly). -/
structure Fs where
  files : List (String × String)
  dirs : List String

/-- Read a file: the content at the first matching path entry. -/
def getFile (fs : Fs) (p : String) : Option String :=
  (fs.files.find? (fun e => e.1 == p)).map Prod.snd

/-- Write a file (create or overwrite). -/
def setFile (fs : Fs) (p : String) (content : String) : Fs :=
  { fs with files := fs.files.filter (fun e => e.1 != p) ++ [(p, content)] }

/-- Does path `p` name `root` itself or live strictly below `root`? -/
def underPath (root p : String) : Bool :=
  p == root || (root ++ "/").data.isPrefixOf p.data

/-- Remove a file or a directory tree at `p`. -/
def removeUnder (fs : Fs) (p : String) : Fs :=
  { files := fs.files.filter (fun e => !underPath p e.1),
    dirs := fs.dirs.filter (fun d => !underPath p d) }

/-- `fs.pathExists`: the path names an existing file or directory. -/
def pathExistsFs (fs : Fs) (p : String) : Bool :=
  fs.files.any (fun e => e.1 == p) || fs.dirs.any (fun d => d == p)

/-- The thrown values of the embedded code.  `userError`/`systemError`
are the classified `UserError`/`SystemError` of `@microsoft/teamsfx-api`
(a name and a message); `plainError` is any other JavaScript `Error`
(its message); `nonError` is a thrown value that is not an `Error`
(its string rendering). -/
inductive ThrownV where
  | userError (name msg : String)
  | systemError (name msg : String)
  | plainError (msg : String)
  | nonError (str : String)
deriving DecidableEq, Repr

/-- Is the thrown value an already-classified `UserError` or
`SystemError`? (the `instanceof` test of `wrapRunMigration`). -/
def isClassifiedError (e : ThrownV) : Bool :=
  match e with
  | .userError _ _ => true
  | .systemError _ _ => true
  | _ => false

/-- Is the thrown value a `SystemError`? -/
def isSystemErrorV (e : ThrownV) : Bool :=
  match e with
  | .systemError _ _ => true
  | _ => false

/-- Modelled from the spec: `ReadFileError` of `core/error` (not under
`src/`), the classified hard error thrown for a missing required file —
a `SystemError` carrying the wrapped error's message. -/
def ReadFileError (msg : String) : ThrownV :=
  .systemError "ReadFileError" msg

/-- Modelled from the spec (§3, §4.2): the migration context owns the
project tree, a private backup area keyed by relative path, and the two
path ledgers (`modifiedPaths`, `backupPaths`) used for rollback. -/
structure MigrationContext where
  fs : Fs
  backupFs : Fs
  modifiedPaths : List String
  backupPaths : List String

/-- Record a path in `modifiedPaths` (a set: recorded once). -/
def recordModified (ctx : MigrationContext) (p : String) : MigrationContext :=
  { ctx with modifiedPaths :=
      if p ∈ ctx.modifiedPaths then ctx.modifiedPaths else ctx.modifiedPaths ++ [p] }

/-- Modelled from the spec (§4.2): `backup(relativePath)` — if the path
exists, copy it (file or directory tree) into the private backup area and
record it in `backupPaths`, returning whether the source existed. -/
def MigrationContext.backup (ctx : MigrationContext) (p : String) :
    Bool × MigrationContext :=
  if pathExistsFs ctx.fs p then
    (true,
     { ctx with
       backupFs :=
         { files := ctx.backupFs.files.filter (fun e => !underPath p e.1) ++
                    ctx.fs.files.filter (fun e => underPath p e.1),
           dirs := ctx.backupFs.dirs.filter (fun d => !underPath p d) ++
                   ctx.fs.dirs.filter (fun d => underPath p d) },
       backupPaths :=
         if p ∈ ctx.backupPaths then ctx.backupPaths else ctx.backupPaths ++ [p] })
  else (false, ctx)

/-- Modelled from the spec (§4.2): `fsEnsureDir` — record the target in
`modifiedPaths`, then ensure the directory exists. -/
def fsEnsureDir (ctx : MigrationContext) (d : String) : MigrationContext :=
  let c := recordModified ctx d
  { c with fs := { c.fs with dirs := if d ∈ c.fs.dirs then c.fs.dirs else c.fs.dirs ++ [d] } }

/-- Modelled from the spec (§4.2): `fsWriteFile` — record the target in
`modifiedPaths`, then write the content. -/
def fsWriteFile (ctx : MigrationContext) (p content : String) : MigrationContext :=
  let c := recordModified ctx p
  { c with fs := setFile c.fs p content }

/-- Modelled from the spec (§4.2): `fsCreateFile` — record the target in
`modifiedPaths`, then ensure the file exists (an existing file is kept). -/
def fsCreateFile (ctx : MigrationContext) (p : String) : MigrationContext :=
  let c := recordModified ctx p
  { c with fs := if (getFile c.fs p).isSome then c.fs else setFile c.fs p "" }

/-- Strip the length of `root` from the front of `p` (used to re-root
copied entries). -/
def dropRoot (root p : String) : String :=
  String.mk (p.data.drop root.data.length)

/-- Modelled from the spec (§4.2): `fsCopy` — record the target in
`modifiedPaths`, then copy the file or directory tree at `src` to `dst`
(overwriting whatever was at `dst`). -/
def fsCopy (ctx : MigrationContext) (src dst : String) : MigrationContext :=
  let c := recordModified ctx dst
  { c with fs :=
      { files := c.fs.files.filter (fun e => !underPath dst e.1) ++
                 c.fs.files.filterMap (fun e =>
                   if underPath src e.1 then some (dst ++ dropRoot src e.1, e.2) else none),
        dirs := c.fs.dirs.filter (fun d => !underPath dst d) ++
                c.fs.dirs.filterMap (fun d =>
                  if underPath src d then some (dst ++ dropRoot src d) else none) } }

/-- `context.fsPathExists`. -/
def fsPathExists (ctx : MigrationContext) (p : String) : Bool :=
  pathExistsFs ctx.fs p

/-- Modelled from the spec (§4.2): `restoreBackup()` — for every path in
`backupPaths`, overwrite the live path with its snapshot. -/
def MigrationContext.restoreBackup (ctx : MigrationContext) : MigrationContext :=
  { ctx with fs := (ctx.backupPaths.foldl
      (fun fs p =>
        { files := fs.files.filter (fun e => !underPath p e.1) ++
                   ctx.backupFs.files.filter (fun e => underPath p e.1),
          dirs := fs.dirs.filter (fun d => !underPath p d) ++
                  ctx.backupFs.dirs.filter (fun d => underPath p d) })
      ctx.fs) }

/-- Modelled from the spec (§4.2): `cleanModifiedPaths()` — delete every
modified path that is not also backed up (net-new artifacts). -/
def MigrationContext.cleanModifiedPaths (ctx : MigrationContext) : MigrationContext :=
  { ctx with fs := (ctx.modifiedPaths.foldl
      (fun fs p => if p ∈ ctx.backupPaths then fs else removeUnder fs p)
      ctx.fs) }

/-- Modelled from the spec (§4.2): `cleanTeamsfx()` — remove the legacy
`.fx` configuration folder (`V2TeamsfxFolder`). -/
def MigrationContext.cleanTeamsfx (ctx : MigrationContext) : MigrationContext :=
  { ctx with fs := removeUnder ctx.fs ".fx" }

/-! ## The core migration pipeline (`projectMigratorV3.ts`) -/

/-- The result of one (possibly throwing) pipeline step: the thrown value
if any, together with the context at that point. -/
def StepResult := Option ThrownV × MigrationContext

/-- One migration step (the `Migration` function type of the source). -/
def Migration := MigrationContext → StepResult

/-- Legacy project settings as far as the embedded code reads them.
Modelled from the spec (§6): the settings document carries the stable
project identifier. -/
structure OldProjectSettings where
  projectId : String

/-- Modelled from the spec: `loadProjectSettingsByProjectPathV2` /
`loadProjectSettings` (not under `src/`) — reads the legacy settings
document below `.fx` and fails with a hard error when it is missing; the
document is modelled as carrying just the project identifier. -/
def loadProjectSettings (ctx : MigrationContext) : Except ThrownV OldProjectSettings :=
  match getFile ctx.fs ".fx/configs/projectSettings.json" with
  | some c => .ok ⟨c⟩
  | none => .error (ReadFileError ".fx/configs/projectSettings.json does not exist")

/-- `preMigration`: snapshot the legacy `.fx` folder
(`context.backup(V2TeamsfxFolder)`). -/
def preMigration (ctx : MigrationContext) : StepResult :=
  (none, (ctx.backup ".fx").2)

/-- The new settings document
`{version: "3.0.0", trackingId: <old project id>}` (serialisation shape
abstracted; the spec fixes the two fields). -/
def settingsJsonContent (pid : String) : String :=
  "\x7b \"version\": \"3.0.0\", \"trackingId\": \"" ++ pid ++ "\" \x7d"

/-- `generateSettingsJson`: load the legacy settings (hard error when
unavailable), ensure the `teamsfx` settings folder and write
`teamsfx/settings.json`. -/
def generateSettingsJson (ctx : MigrationContext) : StepResult :=
  match loadProjectSettings ctx with
  | .error e => (some e, ctx)
  | .ok s =>
      let c1 := fsEnsureDir ctx "teamsfx"
      (none, fsWriteFile c1 "teamsfx/settings.json" (settingsJsonContent s.projectId))

/-- Modelled from the spec (§4.3 step 3): the `AppYmlGenerator` (not
under `src/`) — derives the deployment-descriptor text from the legacy
settings and the infra template text; the derivation itself is opaque to
the analysed claims and is modelled as a deterministic rendering. -/
def appYmlGeneratorOutput (s : OldProjectSettings) (bicepContent : String) : String :=
  "appYml(" ++ s.projectId ++ ";" ++ bicepContent ++ ")"

/-- `generateAppYml`: read `templates/azure/provision.bicep` directly
with `fs.readFile` (a missing file throws a plain `ENOENT` error), load
the legacy settings, and write `teamsfx/app.yml`. -/
def generateAppYml (ctx : MigrationContext) : StepResult :=
  match getFile ctx.fs "templates/azure/provision.bicep" with
  | none => (some (.plainError "ENOENT: templates/azure/provision.bicep"), ctx)
  | some bicepContent =>
      match loadProjectSettings ctx with
      | .error e => (some e, ctx)
      | .ok s =>
          (none, fsWriteFile ctx "teamsfx/app.yml" (appYmlGeneratorOutput s bicepContent))

/-- Modelled from the spec (§2.7, §4.3 step 4): `replacePlaceholdersForV3`
of `MigrationUtils` (not under `src/`) — the pure placeholder-rewrite
engine applied to manifest text given the infra template text.  Its
precise substitutions are outside every analysed claim; it is modelled as
the identity on the text. -/
def replacePlaceholdersForV3 (content : String) (_bicepContent : String) : String :=
  content

/-- `replacePlaceholderForManifests` (`projectMigratorV3.ts`,
lines 200‑261): back up `templates/appPackage` (its absence is a hard
error), ensure `appPackage`, copy the optional `resources` folder, require
`templates/azure/provision.bicep` (hard error when absent), rewrite the
required application manifest into `appPackage/manifest.template.json`
(hard error when the template is absent), and rewrite the optional AAD
manifest into `aad.manifest.template.json` (silently skipped when the
template is absent). -/
def replacePlaceholderForManifests (ctx : MigrationContext) : StepResult :=
  let r := ctx.backup "templates/appPackage"
  if !r.1 then
    (some (ReadFileError "templates/appPackage does not exist"), r.2)
  else
    let ctx2 := fsEnsureDir r.2 "appPackage"
    let ctx3 :=
      if fsPathExists ctx2 "templates/appPackage/resources" then
        fsCopy ctx2 "templates/appPackage/resources" "appPackage/resources"
      else ctx2
    if !fsPathExists ctx3 "templates/azure/provision.bicep" then
      (some (ReadFileError "templates/azure/provision.bicep does not exist"), ctx3)
    else
      match getFile ctx3.fs "templates/azure/provision.bicep" with
      | none => (some (.plainError "ENOENT: templates/azure/provision.bicep"), ctx3)
      | some bicepContent =>
          if fsPathExists ctx3 "templates/appPackage/manifest.template.json" then
            match getFile ctx3.fs "templates/appPackage/manifest.template.json" with
            | none =>
                (some (.plainError "ENOENT: templates/appPackage/manifest.template.json"), ctx3)
            | some oldManifest =>
                let ctx4 := fsWriteFile ctx3 "appPackage/manifest.template.json"
                  (replacePlaceholdersForV3 oldManifest bicepContent)
                if fsPathExists ctx4 "templates/appPackage/aad.template.json" then
                  match getFile ctx4.fs "templates/appPackage/aad.template.json" with
                  | none =>
                      (some (.plainError "ENOENT: templates/appPackage/aad.template.json"), ctx4)
                  | some oldAad =>
                      (none, fsWriteFile ctx4 "aad.manifest.template.json"
                               (replacePlaceholdersForV3 oldAad bicepContent))
                else (none, ctx4)
          else
            (some (ReadFileError "templates/appPackage/manifest.template.json does not exist"),
             ctx3)

/-! ## State/env conversion (`statesMigration`) -/

/-- A character of the regex class `[a-zA-Z0-9_]`. -/
def isWordChar (c : Char) : Bool :=
  ('a' ≤ c && c ≤ 'z') || ('A' ≤ c && c ≤ 'Z') || ('0' ≤ c && c ≤ '9') || c == '_'

/-- Try to match the (unanchored) regex `(state\.)([a-zA-Z0-9_]*)(\.json)`
at the head of the character list: after the literal `state.`, the
capture is the maximal run of word characters, which must be followed by
the literal `.json`.  (No other backtracking can succeed: a shorter run
would have to continue with a word character, never with `.`.) -/
def stateMatchHere (l : List Char) : Option String :=
  if "state.".data.isPrefixOf l then
    let tail := l.drop 6
    let run := tail.takeWhile isWordChar
    if ".json".data.isPrefixOf (tail.drop run.length) then some (String.mk run) else none
  else none

/-- The environment name captured by `exec`-ing the file-name regex
`(state\.)([a-zA-Z0-9_]*)(\.json)` (leftmost match), `none` when the
name does not match. -/
def stateEnvName? (fileName : String) : Option String :=
  go fileName.data
where
  go : List Char → Option String
    | [] => none
    | l@(_ :: rest) =>
        match stateMatchHere l with
        | some env => some env
        | none => go rest

/-- Modelled from the spec (§6): a legacy per-environment state document,
flattened to key/value pairs (the nested-JSON shape is irrelevant to the
analysed claims). -/
@[reducible] def StateObj := List (String × String)

/-- Split a character list at every occurrence of the separator. -/
def splitOnChar (c : Char) : List Char → List (List Char)
  | [] => [[]]
  | x :: xs =>
      let r := splitOnChar c xs
      if x == c then [] :: r
      else
        match r with
        | [] => [[x]]
        | y :: ys => (x :: y) :: ys

/-- Join strings with a separator. -/
def joinSep (sep : String) : List String → String
  | [] => ""
  | [x] => x
  | x :: y :: ys => x ++ sep ++ joinSep sep (y :: ys)

/-- Modelled from the spec: `readStateFile` of `v3MigrationUtils` (not
under `src/`) — read and parse the state document at `path`; the parse is
modelled as splitting `key=value` lines. -/
def parseStateContent (content : String) : Option StateObj :=
  let lines := ((splitOnChar '\n' content.data).map String.mk).filter (fun s => s != "")
  let fields := fun (line : String) => (splitOnChar '=' line.data).map String.mk
  if lines.all (fun line => (fields line).length ≥ 2) then
    some (lines.map (fun line => ((fields line).headD "", joinSep "=" (fields line).tail)))
  else none

/-- Modelled from the spec: `readStateFile(context, path)`. -/
def readStateFile (ctx : MigrationContext) (path : String) : Option StateObj :=
  match getFile ctx.fs path with
  | some content => parseStateContent content
  | none => none

/-- Modelled from the spec: `readBicepContent(context)` of
`v3MigrationUtils` — the infra template text used as the
placeholder-resolution context. -/
def readBicepContent (ctx : MigrationContext) : String :=
  match getFile ctx.fs "templates/azure/provision.bicep" with
  | some c => c
  | none => ""

/-- Modelled from the spec (§4.3 step 5): the per-key renaming of
`jsonObjectNamesConvertV3` — an old dotted/namespaced key becomes a flat
environment-variable-style name. -/
def convertStateName (prefixStr key : String) : String :=
  ((prefixStr ++ key).replace "." "__").toUpper

/-- Modelled from the spec: `jsonObjectNamesConvertV3(obj, "state.",
FileType.STATE, bicepContent)` of `v3MigrationUtils` — render the
renamed key/value pairs as the flat `.env` text. -/
def jsonObjectNamesConvertV3 (obj : StateObj) (prefixStr : String)
    (_bicepContent : String) : String :=
  (obj.map (fun e => convertStateName prefixStr e.1 ++ "=" ++ e.2 ++ "\n")).foldr
    (fun a b => a ++ b) ""

/-- Modelled from the spec: `fsReadDirSync(context, dir)` of
`v3MigrationUtils` — the names of the entries directly below `dir`. -/
def fsReadDirSync (ctx : MigrationContext) (dir : String) : List String :=
  let child := fun (p : String) =>
    if (dir ++ "/").data.isPrefixOf p.data then
      let rest := p.data.drop (dir ++ "/").data.length
      if rest.contains '/' then none else some (String.mk rest)
    else none
  ctx.fs.files.filterMap (fun e => child e.1) ++ ctx.fs.dirs.filterMap child

/-- The body of `statesMigration`'s `for` loop for one directory entry
(`projectMigratorV3.ts`, lines 268‑288): when the file name matches
`state.<envName>.json`, ensure the settings folder, create
`teamsfx/.env.<envName>`, and, when the state document parses, write the
renamed key/value pairs into it. -/
def processStateFile (ctx : MigrationContext) (fileName : String) : MigrationContext :=
  match stateEnvName? fileName with
  | none => ctx
  | some envName =>
      let ctx1 := fsEnsureDir ctx "teamsfx"
      let ctx2 := fsCreateFile ctx1 ("teamsfx/.env." ++ envName)
      match readStateFile ctx2 (".fx/states/state." ++ envName ++ ".json") with
      | none => ctx2
      | some obj =>
          let bicepContent := readBicepContent ctx2
          fsWriteFile ctx2 ("teamsfx/.env." ++ envName)
            (jsonObjectNamesConvertV3 obj "state." bicepContent)

/-- `statesMigration` (`projectMigratorV3.ts`, lines 263‑290): when
`.fx/states` exists, process every directory entry in order; when it does
not exist, do nothing.  The step never throws. -/
def statesMigration (ctx : MigrationContext) : StepResult :=
  if fsPathExists ctx (".fx/states") then
    (none, (fsReadDirSync ctx (".fx/states")).foldl processStateFile ctx)
  else
    (none, ctx)

/-! ## Launch-configuration rewrite (`updateLaunchJson`) -/

/-- Global literal replacement on character lists: the semantics of
JavaScript `text.replace(/lit/g, repl)` for a literal pattern — scan left
to right, replacing each (non-overlapping) occurrence of `pat`. -/
def replaceAllL (pat rep : List Char) : List Char → List Char
  | [] => []
  | c :: cs =>
      if h : pat ≠ [] ∧ pat.isPrefixOf (c :: cs) then
        rep ++ replaceAllL pat rep ((c :: cs).drop pat.length)
      else
        c :: replaceAllL pat rep cs
termination_by s => s.length
decreasing_by
  · have hpos : 0 < pat.length := List.length_pos.mpr h.1
    simp only [List.length_drop, List.length_cons]
    omega
  · simp

/-- Global literal replacement on strings (`String.prototype.replace`
with a global literal regex). -/
def replaceAllStr (s pat rep : String) : String :=
  String.mk (replaceAllL pat.data rep.data s.data)

/-- The three token substitutions of `updateLaunchJson`
(`projectMigratorV3.ts`, lines 183‑186), applied in source order. -/
def launchJsonSubstitute (content : String) : String :=
  replaceAllStr
    (replaceAllStr
      (replaceAllStr content "${teamsAppId}" "${dev:teamsAppId}")
      "${localTeamsAppId}" "${local:teamsAppId}")
    "${localTeamsAppInternalId}" "${local:teamsAppInternalId}"

/-- `updateLaunchJson` (`projectMigratorV3.ts`, lines 178‑189): when
`.vscode/launch.json` exists, back it up, rewrite the three tokens and
write the result; when it does not exist, do nothing. -/
def updateLaunchJson (ctx : MigrationContext) : StepResult :=
  if fsPathExists ctx ".vscode/launch.json" then
    let ctx1 := (ctx.backup ".vscode/launch.json").2
    match getFile ctx1.fs ".vscode/launch.json" with
    | none => (some (.plainError "ENOENT: .vscode/launch.json"), ctx1)
    | some content =>
        (none, fsWriteFile ctx1 ".vscode/launch.json" (launchJsonSubstitute content))
  else
    (none, ctx)

/-! ## Pipeline driver and rollback wrapper -/

/-- `subMigrations` (`projectMigratorV3.ts`, lines 54‑61): the fixed
ordered list of the six migration steps. -/
def subMigrations : List Migration :=
  [preMigration, generateSettingsJson, generateAppYml,
   replacePlaceholderForManifests, statesMigration, updateLaunchJson]

/-- The `for (const subMigration of subMigrations) await subMigration`
loop: run the steps in order on the shared context, stopping at the first
thrown error. -/
def runSteps : List Migration → MigrationContext → StepResult
  | [], ctx => (none, ctx)
  | step :: rest, ctx =>
      match step ctx with
      | (some e, ctx') => (some e, ctx')
      | (none, ctx') => runSteps rest ctx'

/-- `migrate` (`projectMigratorV3.ts`, lines 132‑136). -/
def migrate (ctx : MigrationContext) : StepResult :=
  runSteps subMigrations ctx

/-- Sequential composition of a step result with the next step: the next
step starts only when the previous one resolved without throwing. -/
def bindStep (r : StepResult) (step : Migration) : StepResult :=
  match r with
  | (some e, ctx) => (some e, ctx)
  | (none, ctx) => step ctx

/-- `rollbackMigration` (`projectMigratorV3.ts`, lines 123‑127): the
three-phase rollback, in source order — `cleanModifiedPaths`, then
`restoreBackup`, then `cleanTeamsfx`. -/
def rollbackMigration (ctx : MigrationContext) : MigrationContext :=
  MigrationContext.cleanTeamsfx
    (MigrationContext.restoreBackup
      (MigrationContext.cleanModifiedPaths ctx))

/-- The `fxError` classification of `wrapRunMigration`'s catch block
(`projectMigratorV3.ts`, lines 97‑111): an already-classified
`UserError`/`SystemError` passes through; anything else is wrapped into
the generic internal `SystemError` (`ErrorConstants.unhandledError`)
carrying the original message.  In the source this value is passed to
`sendTelemetryErrorEvent` only. -/
def classifyError (e : ThrownV) : ThrownV :=
  match e with
  | .userError n m => .userError n m
  | .systemError n m => .systemError n m
  | .plainError m => .systemError "UnhandledError" m
  | .nonError s => .systemError "UnhandledError" s

/-- The value actually re-thrown by `wrapRunMigration`'s catch block
(`throw error`, line 119): the original thrown value, except that a
non-`Error` value was first replaced by `new Error(error.toString())`
(lines 101‑103). -/
def propagatedError (e : ThrownV) : ThrownV :=
  match e with
  | .nonError s => .plainError s
  | other => other

/-- `wrapRunMigration` (`projectMigratorV3.ts`, lines 83‑121): run the
pipeline; on a thrown error, classify it (for telemetry), run the full
rollback on the migration context, and re-throw.  Telemetry emission and
the empty `showSummaryReport` are no-ops in the model. -/
def wrapRunMigration (exec : MigrationContext → StepResult)
    (ctx : MigrationContext) : StepResult :=
  match exec ctx with
  | (none, ctx') => (none, ctx')
  | (some e, ctx') =>
      let _fxError := classifyError e
      (some (propagatedError e), rollbackMigration ctx')

/-! ## Debug-task migration sub-pipeline (`src/unnamed/part_000`) -/

/-- `Array.prototype.splice(i, 0, a)`: insert `a` at index `i`. -/
def insertAt (l : List JVal) (i : Nat) (a : JVal) : List JVal :=
  l.take i ++ a :: l.drop i

/-- `Array.prototype.splice(i, 1)`: remove the element at index `i`. -/
def eraseAt (l : List JVal) (i : Nat) : List JVal :=
  l.take i ++ l.drop (i + 1)

/-- JS `value.startsWith(pre)`. -/
def strStarts (v pre : String) : Bool :=
  pre.data.isPrefixOf v.data

/-- Is the optional JSON value this exact string? -/
def jIsStr (v : Option JVal) (s : String) : Bool :=
  match v with
  | some (.str t) => t == s
  | _ => false

/-- `getLabels(tasks)` (`src/unnamed/part_000`, lines 992‑1001): the
`label` of every task that is an object with a string label. -/
def taskLabel? (t : JVal) : Option String :=
  match jget t "label" with
  | some (.str s) => some s
  | _ => none

/-- The labels present in a task list. -/
def getLabels (tasks : List JVal) : List String :=
  tasks.filterMap taskLabel?

/-- The largest length among a list of strings. -/
def maxLabelLen (xs : List String) : Nat :=
  xs.foldr (fun s m => max s.length m) 0

/-- Modelled from the spec (§4.4): `generateLabel(base, existingLabels)`
of `debugV3MigrationUtils` (not under `src/`) — returns `base` when it is
unused, and otherwise appends a deterministic string disambiguator
(`" #2…2"`, long enough to be fresh) so that the result never collides
with an existing label; the same inputs always yield the same label. -/
def generateLabel (base : String) (existing : List String) : String :=
  if base ∈ existing then
    base ++ " #" ++ String.mk (List.replicate (maxLabelLen existing + 1) '2')
  else base

/-- Modelled from the spec (§4.4): `createResourcesTask(label)` of
`debugV3MigrationUtils` — the synthetic "Create resources" helper task
(a `teamsfx` task running the provision lifecycle; it carries no
`dependsOn`). -/
def createResourcesTask (label : String) : JVal :=
  .obj [("label", .str label), ("type", .str "teamsfx"),
        ("command", .str "provision"), ("args", .obj [("env", .str "local")])]

/-- Modelled from the spec (§4.4): `setUpLocalProjectsTask(label)` of
`debugV3MigrationUtils` — the synthetic "Set up local projects" helper
task (a `teamsfx` task running the deploy lifecycle; no `dependsOn`). -/
def setUpLocalProjectsTask (label : String) : JVal :=
  .obj [("label", .str label), ("type", .str "teamsfx"),
        ("command", .str "deploy"), ("args", .obj [("env", .str "local")])]

/-- The fixed placeholder-mapping table (§3): the new-style namespaced
placeholder names for the bot/tab endpoint and domain, resolved once per
file type; read-only strings for the whole pipeline. -/
structure PlaceholderMapping where
  botEndpoint : String
  botDomain : String
  tabEndpoint : String
  tabDomain : String

/-- The `provision.bot` section of the `AppYmlConfig` accumulator. -/
structure BotProvisionConfig where
  messagingEndpoint : String

/-- The `provision` section of the `AppYmlConfig` accumulator. -/
structure ProvisionSectionCfg where
  bot : Option BotProvisionConfig := none

/-- The `deploy` section of the `AppYmlConfig` accumulator (only the
field the embedded functions touch). -/
structure DeploySectionCfg where
  bot : Bool := false

/-- The `AppYmlConfig` accumulator, restricted to the sections the
embedded functions touch.  Sections are created lazily (`none` until the
first write). -/
structure AppYmlConfig where
  provision : Option ProvisionSectionCfg := none
  deploy : Option DeploySectionCfg := none

/-- `DebugMigrationContext`: the sub-pipeline context — the task array
view, the wrapped `MigrationContext`, the read-only legacy settings
snapshot, the `AppYmlConfig` accumulator, the placeholder mapping, the
labels synthesized by this run (`generatedLabels`), and the ambient
`process.env` (modelled as an association list). -/
structure DebugMigrationContext where
  migrationContext : MigrationContext
  tasks : List JVal
  oldProjectSettings : OldProjectSettings
  appYmlConfig : AppYmlConfig
  placeholderMapping : PlaceholderMapping
  generatedLabels : List String
  processEnv : List (String × String)

/-- `handleProvisionAndDeploy(context, index, label)`
(`src/unnamed/part_000`, lines 928‑961): remove the matched task; reuse
the cached "Create resources" / "Set up local projects" labels when a
`generatedLabels` entry with that prefix exists, otherwise generate fresh
ones from the current task labels, record them in `generatedLabels` and
splice the two helper tasks in at the current index (advancing it past
them); finally repoint every `dependsOn` reference to the removed label
at the two helper labels. -/
def handleProvisionAndDeploy (ctx : DebugMigrationContext) (index : Nat)
    (label : String) : DebugMigrationContext × Nat :=
  let tasks0 := eraseAt ctx.tasks index
  let existingLabels := getLabels tasks0
  let generatedBefore := ctx.generatedLabels.find? (fun v => strStarts v "Create resources")
  let createResourcesLabel :=
    match generatedBefore with
    | some v => v
    | none => generateLabel "Create resources" existingLabels
  let setUpLocalProjectsLabel :=
    match ctx.generatedLabels.find? (fun v => strStarts v "Set up local projects") with
    | some v => v
    | none => generateLabel "Set up local projects" existingLabels
  match generatedBefore with
  | none =>
      let tasks1 := insertAt tasks0 index (createResourcesTask createResourcesLabel)
      let tasks2 := insertAt tasks1 (index + 1) (setUpLocalProjectsTask setUpLocalProjectsLabel)
      ({ ctx with
         tasks := replaceInDependsOn label tasks2 [createResourcesLabel, setUpLocalProjectsLabel],
         generatedLabels := ctx.generatedLabels ++ [createResourcesLabel, setUpLocalProjectsLabel] },
       index + 2)
  | some _ =>
      ({ ctx with
         tasks := replaceInDependsOn label tasks0 [createResourcesLabel, setUpLocalProjectsLabel] },
       index)

/-- Modelled from the spec (§6): `LocalCrypto` — the injected
secret-encryption capability `encrypt(plaintext) → Result`; the
ciphertext rendering is opaque, deterministic, and tied to the project
identifier. -/
def LocalCrypto.encryptValue (projectId plaintext : String) : String :=
  "crypto:" ++ projectId ++ ":" ++ plaintext

/-- Modelled from the spec: `new LocalCrypto(projectId).encrypt(p)` —
always succeeds in the model. -/
def LocalCrypto.encrypt (projectId plaintext : String) : Except String String :=
  .ok (LocalCrypto.encryptValue projectId plaintext)

/-- The anchored env-reference regex `^\$\{env:(.*)\}$` applied with
`String.prototype.match`: the captured name when the whole string is an
environment-variable reference (`.` does not match line breaks). -/
def envRefName? (s : String) : Option String :=
  let l := s.data
  if ("$\x7benv:".data.isPrefixOf l) && (l.getLast? == some '\x7d')
      && !((l.drop 6).dropLast.any (fun c => c == '\n' || c == '\r')) then
    some (String.mk ((l.drop 6).dropLast))
  else none

/-- The `envs` map assembled by `migrateSetUpBot`
(`src/unnamed/part_000`, lines 233‑261): `BOT_ID` from a truthy string
`botId` argument; `SECRET_BOT_PASSWORD` from a truthy string
`botPassword` argument — resolved through `process.env` when it is an
`${env:NAME}` reference — encrypted with `LocalCrypto` when the resolved
value is truthy and the encryption succeeds. -/
def setUpBotEnvs (projectId : String) (processEnv : List (String × String))
    (argsOpt : Option JVal) : List (String × String) :=
  match argsOpt with
  | some (.obj akvs) =>
      let botIdEnvs : List (String × String) :=
        match List.lookup "botId" akvs with
        | some (.str s) => if s == "" then [] else [("BOT_ID", s)]
        | _ => []
      let botPasswordEnvs : List (String × String) :=
        match List.lookup "botPassword" akvs with
        | some (.str s) =>
            if s == "" then []
            else
              match (match envRefName? s with
                     | some nm => List.lookup nm processEnv
                     | none => some s) with
              | some pw =>
                  if pw == "" then []
                  else
                    match LocalCrypto.encrypt projectId pw with
                    | .ok ct => [("SECRET_BOT_PASSWORD", ct)]
                    | .error _ => []
              | none => []
        | _ => []
      botIdEnvs ++ botPasswordEnvs
  | _ => []

/-- Render an env map as `KEY=value` lines. -/
def renderEnvEntries (envs : List (String × String)) : String :=
  (envs.map (fun e => e.1 ++ "=" ++ e.2 ++ "\n")).foldr (fun a b => a ++ b) ""

/-- Modelled from the spec (§4.4): `updateLocalEnv(migrationContext,
envs)` of `debugV3MigrationUtils` — write the entries of the emitted env
map into the new local environment file (`teamsfx/.env.local`). -/
def updateLocalEnv (m : MigrationContext) (envs : List (String × String)) :
    MigrationContext :=
  fsWriteFile m "teamsfx/.env.local"
    ((match getFile m.fs "teamsfx/.env.local" with
      | some c => c
      | none => "") ++ renderEnvEntries envs)

/-- Modelled from the spec: the constant `TaskCommand.setUpBot` of
`common/local` (not under `src/`). -/
def TaskCommand.setUpBot : String := "debug-set-up-bot"

/-- Does the task match `migrateSetUpBot`'s recognition rule
(`src/unnamed/part_000`, lines 206‑214): an object of type `teamsfx`
whose command is `TaskCommand.setUpBot`? -/
def isSetUpBotTask (t : JVal) : Bool :=
  isCommentObject t && jIsStr (jget t "type") "teamsfx"
    && jIsStr (jget t "command") TaskCommand.setUpBot

/-- Everything `migrateSetUpBot` does to a matched task before calling
`handleProvisionAndDeploy` (`src/unnamed/part_000`, lines 221‑262):
merge `provision.bot` (base messaging endpoint from the placeholder
mapping, possibly overridden by a `botMessagingEndpoint` argument) and
`deploy.bot` into the `AppYmlConfig` accumulator, and write the emitted
env map through `updateLocalEnv`. -/
def processSetUpBotTask (ctx : DebugMigrationContext) (task : JVal) :
    DebugMigrationContext :=
  let baseEndpoint := "$\x7b\x7b" ++ ctx.placeholderMapping.botEndpoint ++ "\x7d\x7d/api/messages"
  let prov0 : ProvisionSectionCfg :=
    match ctx.appYmlConfig.provision with
    | some p => p
    | none => {}
  let prov1 := { prov0 with bot := some ⟨baseEndpoint⟩ }
  let dep0 : DeploySectionCfg :=
    match ctx.appYmlConfig.deploy with
    | some d => d
    | none => {}
  let dep1 := { dep0 with bot := true }
  let prov2 :=
    match jget task "args" with
    | some args =>
        match jget args "botMessagingEndpoint" with
        | some (.str s) =>
            if s == "" then prov1
            else if strStarts s "http" then { prov1 with bot := some ⟨s⟩ }
            else if strStarts s "/" then
              { prov1 with bot := some ⟨"$\x7b\x7b" ++ ctx.placeholderMapping.botEndpoint ++ "\x7d\x7d" ++ s⟩ }
            else prov1
        | _ => prov1
    | none => prov1
  let envs := setUpBotEnvs ctx.oldProjectSettings.projectId ctx.processEnv (jget task "args")
  { ctx with
    appYmlConfig := { ctx.appYmlConfig with provision := some prov2, deploy := some dep1 },
    migrationContext := updateLocalEnv ctx.migrationContext envs }

/-- The `while` loop of `migrateSetUpBot` (`src/unnamed/part_000`,
lines 204‑267): scan the task list from `index`; a non-matching task (or
one without a string label) advances the index; a matching task is
processed and removed, with `handleProvisionAndDeploy` supplying the next
index (past any helper tasks it spliced in). -/
def migrateSetUpBotGo (ctx : DebugMigrationContext) (index : Nat) :
    DebugMigrationContext :=
  if h : index < ctx.tasks.length then
    let task := ctx.tasks.get ⟨index, h⟩
    if isSetUpBotTask task then
      match taskLabel? task with
      | some label =>
          let ctx1 := processSetUpBotTask ctx task
          let r := handleProvisionAndDeploy ctx1 index label
          migrateSetUpBotGo r.1 r.2
      | none => migrateSetUpBotGo ctx (index + 1)
    else migrateSetUpBotGo ctx (index + 1)
  else ctx
termination_by ctx.tasks.length - index
decreasing_by
  · have hkey : ∀ (c : DebugMigrationContext) (i : Nat) (l : String),
        i < c.tasks.length →
        (handleProvisionAndDeploy c i l).1.tasks.length -
          (handleProvisionAndDeploy c i l).2 < c.tasks.length - i := by
      intro c i l hi
      unfold handleProvisionAndDeploy
      rcases hf : c.generatedLabels.find? (fun v => strStarts v "Create resources") with _ | v
      · simp only [replaceInDependsOn, insertAt, eraseAt, List.length_map,
          List.length_append, List.length_take, List.length_drop, List.length_cons]
        omega
      · simp only [replaceInDependsOn, insertAt, eraseAt, List.length_map,
          List.length_append, List.length_take, List.length_drop, List.length_cons]
        omega
    have hsame : (processSetUpBotTask ctx task).tasks = ctx.tasks := rfl
    have := hkey (processSetUpBotTask ctx task) index label (by rw [hsame]; exact h)
    simpa [hsame] using this
  · omega

/-- `migrateSetUpBot(context)` (`src/unnamed/part_000`, lines 203‑267). -/
def migrateSetUpBot (ctx : DebugMigrationContext) : DebugMigrationContext :=
  migrateSetUpBotGo ctx 0

/-! ## Helper lemmas -/

theorem lookup_set_self (k : String) (v : JVal) :
    ∀ (kvs : List (String × JVal)), (List.lookup k kvs).isSome = true →
      List.lookup k (kvs.map (fun e => if e.1 = k then (e.1, v) else e)) = some v := by
  intro kvs
  induction kvs with
  | nil => intro h; simp [List.lookup] at h
  | cons a t ih =>
      intro h
      by_cases hak : a.1 = k
      · have hbeq : (k == a.1) = true := beq_iff_eq.mpr hak.symm
        rw [List.map_cons, if_pos hak]
        simp [List.lookup, hbeq]
      · have hak' : (k == a.1) = false := beq_false_of_ne (fun he => hak he.symm)
        rw [List.map_cons, if_neg hak]
        simp only [List.lookup, hak'] at h
        simp [List.lookup, hak', ih h]

theorem jget_jset_self (t : JVal) (k : String) (v : JVal)
    (h : isCommentObject t = true) : jget (jset t k v) k = some v := by
  cases t with
  | obj kvs =>
      by_cases hs : (List.lookup k kvs).isSome = true
      · simp only [jset, hs, if_true, jget]
        exact lookup_set_self k v kvs hs
      · have hn : List.lookup k kvs = none := by
          rcases hl : List.lookup k kvs with _ | w
          · rfl
          · rw [hl] at hs; simp at hs
        simp only [jset, hn, Option.isSome_none, Bool.false_eq_true, if_false, jget]
        rw [List.lookup_append, hn]
        simp [List.lookup]
  | str s => simp [isCommentObject] at h
  | num n => simp [isCommentObject] at h
  | bool b => simp [isCommentObject] at h
  | null => simp [isCommentObject] at h
  | arr xs => simp [isCommentObject] at h

theorem jget_jdel_self (t : JVal) (k : String) : jget (jdel t k) k = none := by
  cases t with
  | obj kvs =>
      simp only [jdel, jget]
      induction kvs with
      | nil => simp [List.lookup]
      | cons a tl ih =>
          by_cases hk : a.1 = k
          · simpa [List.filter, hk] using ih
          · have hk1 : (a.1 != k) = true := by simp [bne, hk]
            have hk2 : (k == a.1) = false := beq_false_of_ne (fun he => hk he.symm)
            simpa [List.filter, hk1, List.lookup, hk2] using ih
  | str s => rfl
  | num n => rfl
  | bool b => rfl
  | null => rfl
  | arr xs => rfl

theorem jget_some_isObj (t : JVal) (k : String) (v : JVal)
    (h : jget t k = some v) : isCommentObject t = true := by
  cases t <;> simp_all [jget, isCommentObject]

/-! ## C9: host detection returns "Outlook" for every manifest -/

/-- C9: in the manifest-import host detection, `getHost` returns
`"Outlook"` for every input manifest, regardless of the first extension's
first requirement scope: the only live `switch` branch (`"mail"`) yields
the same value as the default, so the non-`"mail"` scopes are dead as
distinct behaviours. -/
theorem c9_getHost_always_outlook (m : AddinManifest) : getHost m = "Outlook" := by
  unfold getHost
  split <;> rfl

/-! ## C2: dependency relabeling -/

/-- C2 (amended): relabeling `A` to `[X, Y]` turns a bare-string
`dependsOn: "A"` into the ordered sequence `[X, Y]`; an array
`["A", "C"]` relabeled with zero replacements becomes `["C"]`; and when
the resulting reference set would be empty, the `dependsOn` key is
deleted in the bare-string form, while in the array form the key remains
and holds an empty array. -/
theorem c2_replaceInDependsOn_relabel (A X Y C : String) (t : JVal)
    (tasks : List JVal) (reps : List String) :
    (replaceInDependsOn A tasks reps = tasks.map (replaceTaskDependsOn A reps))
    ∧ (A ≠ "" → jget t "dependsOn" = some (.str A) →
        jget (replaceTaskDependsOn A [X, Y] t) "dependsOn"
          = some (.arr [.str X, .str Y]))
    ∧ (jget t "dependsOn" = some (.arr [.str A, .str C]) →
        jget (replaceTaskDependsOn A [] t) "dependsOn" = some (.arr [.str C]))
    ∧ (A ≠ "" → jget t "dependsOn" = some (.str A) →
        jget (replaceTaskDependsOn A [] t) "dependsOn" = none)
    ∧ (jget t "dependsOn" = some (.arr [.str A]) →
        jget (replaceTaskDependsOn A [] t) "dependsOn" = some (.arr [])) := by
  refine ⟨rfl, ?_, ?_, ?_, ?_⟩
  · intro hA h
    have hobj := jget_some_isObj t "dependsOn" _ h
    have hA' : (A != "") = true := by simp [bne, hA]
    simp only [replaceTaskDependsOn, h, hobj, jTruthy, hA', Bool.and_true, if_true]
    simp [jget_jset_self t "dependsOn" _ hobj]
  · intro h
    have hobj := jget_some_isObj t "dependsOn" _ h
    simp only [replaceTaskDependsOn, h, hobj, jTruthy, Bool.and_true, if_true]
    have hfind : List.findIdx? (fun v => jStrEq v A) [JVal.str A, JVal.str C] = some 0 := by
      simp [List.findIdx?_cons, jStrEq]
    simp only [hfind]
    simp [jget_jset_self t "dependsOn" _ hobj, List.eraseIdx]
  · intro hA h
    have hobj := jget_some_isObj t "dependsOn" _ h
    have hA' : (A != "") = true := by simp [bne, hA]
    simp only [replaceTaskDependsOn, h, hobj, jTruthy, hA', Bool.and_true, if_true]
    simp [jget_jdel_self]
  · intro h
    have hobj := jget_some_isObj t "dependsOn" _ h
    simp only [replaceTaskDependsOn, h, hobj, jTruthy, Bool.and_true, if_true]
    have hfind : List.findIdx? (fun v => jStrEq v A) [JVal.str A] = some 0 := by
      simp [List.findIdx?_cons, jStrEq]
    simp only [hfind]
    simp [jget_jset_self t "dependsOn" _ hobj, List.eraseIdx]

/-- C2 counterexample: a task whose array `dependsOn` is `["A"]`,
relabeled with zero replacements, keeps its `dependsOn` key — the key
holds an empty array instead of being absent as the claim states. -/
theorem c2_counterexample :
    replaceInDependsOn "A"
        [JVal.obj [("label", JVal.str "B"), ("dependsOn", JVal.arr [JVal.str "A"])]] []
      = [JVal.obj [("label", JVal.str "B"), ("dependsOn", JVal.arr [])]]
    ∧ jget (JVal.obj [("label", JVal.str "B"), ("dependsOn", JVal.arr [])]) "dependsOn"
      = some (JVal.arr [])
    ∧ (some (JVal.arr ([] : List JVal)) ≠ none) := by
  refine ⟨rfl, rfl, by simp⟩

/-- C2 witness: the amended behaviour at concrete inputs. -/
theorem c2_witness :
    jget (replaceTaskDependsOn "A" ["X", "Y"] (JVal.obj [("dependsOn", JVal.str "A")]))
        "dependsOn" = some (JVal.arr [JVal.str "X", JVal.str "Y"])
    ∧ jget (replaceTaskDependsOn "A" []
        (JVal.obj [("dependsOn", JVal.arr [JVal.str "A", JVal.str "C"])])) "dependsOn"
      = some (JVal.arr [JVal.str "C"])
    ∧ jget (replaceTaskDependsOn "A" [] (JVal.obj [("dependsOn", JVal.str "A")]))
        "dependsOn" = none
    ∧ jget (replaceTaskDependsOn "A" []
        (JVal.obj [("dependsOn", JVal.arr [JVal.str "A"])])) "dependsOn"
      = some (JVal.arr []) :=
  ⟨(c2_replaceInDependsOn_relabel "A" "X" "Y" "C"
      (JVal.obj [("dependsOn", JVal.str "A")]) [] []).2.1 (by decide) rfl,
   (c2_replaceInDependsOn_relabel "A" "X" "Y" "C"
      (JVal.obj [("dependsOn", JVal.arr [JVal.str "A", JVal.str "C"])]) [] []).2.2.1 rfl,
   (c2_replaceInDependsOn_relabel "A" "X" "Y" "C"
      (JVal.obj [("dependsOn", JVal.str "A")]) [] []).2.2.2.1 (by decide) rfl,
   (c2_replaceInDependsOn_relabel "A" "X" "Y" "C"
      (JVal.obj [("dependsOn", JVal.arr [JVal.str "A"])]) [] []).2.2.2.2 rfl⟩

/-! ## C10: array relabeling when the first replacement is present -/

theorem findIdx?_countP_eraseIdx {p : JVal → Bool} :
    ∀ (l : List JVal) (s i : Nat), List.findIdx? p l s = some i →
      s ≤ i ∧ (l.eraseIdx (i - s)).countP p + 1 = l.countP p := by
  intro l
  induction l with
  | nil => intro s i h; simp [List.findIdx?] at h
  | cons a t ih =>
      intro s i h
      rw [List.findIdx?_cons] at h
      by_cases hp : p a = true
      · rw [if_pos hp] at h
        have hi : i = s := by injection h with h'; exact h'.symm
        subst hi
        simp [List.eraseIdx, List.countP_cons, hp]
      · rw [if_neg hp] at h
        obtain ⟨hle, hcount⟩ := ih (s + 1) i h
        constructor
        · omega
        · have his : i - s = (i - (s + 1)) + 1 := by omega
          rw [his]
          have hp' : p a = false := by simp [hp]
          simp [List.eraseIdx_cons_succ, List.countP_cons, hp', hcount]

theorem jset_isObj (t : JVal) (k : String) (v : JVal) :
    isCommentObject (jset t k v) = isCommentObject t := by
  cases t with
  | obj kvs =>
      simp only [jset]
      split <;> rfl
  | str s => rfl
  | num n => rfl
  | bool b => rfl
  | null => rfl
  | arr xs => rfl

/-- C10 (amended): when a task's array `dependsOn` contains both the old
label and the first replacement label, the relabeling removes the first
occurrence of the old label and inserts nothing; it never increases the
number of occurrences of the first replacement in the array; and,
provided the old label occurs at most once in the array, applying the
same relabeling a second time leaves the task unchanged. -/
theorem c10_array_dedup_relabel (A X : String) (rest : List String)
    (t : JVal) (xs : List JVal) (i : Nat)
    (h1 : jget t "dependsOn" = some (.arr xs))
    (h2 : xs.findIdx? (fun v => jStrEq v A) = some i)
    (h3 : xs.any (fun v => jStrEq v X) = true) :
    replaceTaskDependsOn A (X :: rest) t = jset t "dependsOn" (.arr (xs.eraseIdx i))
    ∧ (xs.eraseIdx i).countP (fun v => jStrEq v X)
        ≤ xs.countP (fun v => jStrEq v X)
    ∧ (xs.countP (fun v => jStrEq v A) ≤ 1 →
        replaceTaskDependsOn A (X :: rest) (replaceTaskDependsOn A (X :: rest) t)
          = replaceTaskDependsOn A (X :: rest) t) := by
  have hobj := jget_some_isObj t "dependsOn" _ h1
  have hfirst : replaceTaskDependsOn A (X :: rest) t
      = jset t "dependsOn" (.arr (xs.eraseIdx i)) := by
    simp only [replaceTaskDependsOn, h1, hobj, jTruthy, Bool.and_true, if_true, h2, h3]
  refine ⟨hfirst, List.Sublist.countP_le _ (List.eraseIdx_sublist xs i), ?_⟩
  intro hcount
  rw [hfirst]
  have hget : jget (jset t "dependsOn" (.arr (xs.eraseIdx i))) "dependsOn"
      = some (.arr (xs.eraseIdx i)) := jget_jset_self t "dependsOn" _ hobj
  have hobj' : isCommentObject (jset t "dependsOn" (.arr (xs.eraseIdx i))) = true := by
    rw [jset_isObj]; exact hobj
  have herase : (xs.eraseIdx i).countP (fun v => jStrEq v A) = 0 := by
    obtain ⟨-, hc⟩ := findIdx?_countP_eraseIdx xs 0 i h2
    simp only [Nat.sub_zero] at hc
    omega
  have hnone : (xs.eraseIdx i).findIdx? (fun v => jStrEq v A) = none := by
    rw [List.findIdx?_eq_none_iff]
    intro x hx
    exact Bool.eq_false_iff.mpr (List.countP_eq_zero.mp herase x hx)
  simp only [replaceTaskDependsOn, hget, hobj', jTruthy, Bool.and_true, if_true, hnone]

/-- C10 counterexample: with `dependsOn: ["A", "A", "X"]` (the old label
occurring twice) and replacements `[X, Y]`, the first relabeling removes
only the first occurrence of `"A"`, so the old label is still present and
a second application of the same relabeling changes the array again —
the claimed idempotence fails. -/
theorem c10_counterexample :
    replaceInDependsOn "A"
        [JVal.obj [("dependsOn", JVal.arr [JVal.str "A", JVal.str "A", JVal.str "X"])]]
        ["X", "Y"]
      = [JVal.obj [("dependsOn", JVal.arr [JVal.str "A", JVal.str "X"])]]
    ∧ replaceInDependsOn "A"
        [JVal.obj [("dependsOn", JVal.arr [JVal.str "A", JVal.str "X"])]] ["X", "Y"]
      = [JVal.obj [("dependsOn", JVal.arr [JVal.str "X"])]]
    ∧ JVal.obj [("dependsOn", JVal.arr [JVal.str "X"])]
        ≠ JVal.obj [("dependsOn", JVal.arr [JVal.str "A", JVal.str "X"])] := by
  refine ⟨rfl, rfl, by simp⟩

/-- C10 witness: the amended behaviour at a concrete input
(`dependsOn: ["A", "X"]`, replacements `[X, Y]`). -/
theorem c10_witness :
    replaceTaskDependsOn "A" ["X", "Y"]
        (JVal.obj [("dependsOn", JVal.arr [JVal.str "A", JVal.str "X"])])
      = jset (JVal.obj [("dependsOn", JVal.arr [JVal.str "A", JVal.str "X"])])
          "dependsOn" (.arr ([JVal.str "A", JVal.str "X"].eraseIdx 0))
    ∧ ([JVal.str "A", JVal.str "X"].eraseIdx 0).countP (fun v => jStrEq v "X")
        ≤ [JVal.str "A", JVal.str "X"].countP (fun v => jStrEq v "X")
    ∧ replaceTaskDependsOn "A" ["X", "Y"]
        (replaceTaskDependsOn "A" ["X", "Y"]
          (JVal.obj [("dependsOn", JVal.arr [JVal.str "A", JVal.str "X"])]))
      = replaceTaskDependsOn "A" ["X", "Y"]
          (JVal.obj [("dependsOn", JVal.arr [JVal.str "A", JVal.str "X"])]) := by
  obtain ⟨ha, hb, hc⟩ := c10_array_dedup_relabel "A" "X" ["Y"]
    (JVal.obj [("dependsOn", JVal.arr [JVal.str "A", JVal.str "X"])])
    [JVal.str "A", JVal.str "X"] 0 rfl rfl rfl
  exact ⟨ha, hb, hc (by decide)⟩

/-! ## C1: rollback and error propagation in `wrapRunMigration` -/

/-- C1 (amended): when a pipeline step throws, the full three-phase
rollback (`cleanModifiedPaths`, then `restoreBackup`, then `cleanTeamsfx`)
runs on the migration context before the error propagates; the propagated
error is the original thrown value whenever that value is an `Error` —
both for already-classified `UserError`/`SystemError` and for any other
`Error` (for which the generic internal wrapper carrying the original
message is built but only reported to telemetry) — while a thrown
non-`Error` value propagates as a plain `Error` carrying its string
rendering. -/
theorem c1_wrapRunMigration_rollback (exec : MigrationContext → StepResult)
    (ctx ctx' : MigrationContext) (e : ThrownV)
    (h : exec ctx = (some e, ctx')) :
    wrapRunMigration exec ctx
      = (some (propagatedError e),
         MigrationContext.cleanTeamsfx
           (MigrationContext.restoreBackup
             (MigrationContext.cleanModifiedPaths ctx')))
    ∧ (isClassifiedError e = true → propagatedError e = e)
    ∧ (∀ m, e = .plainError m → propagatedError e = e)
    ∧ (∀ s, e = .nonError s → propagatedError e = .plainError s)
    ∧ (∀ m, e = .plainError m → classifyError e = .systemError "UnhandledError" m) := by
  refine ⟨?_, ?_, ?_, ?_, ?_⟩
  · simp [wrapRunMigration, h, rollbackMigration]
  · intro hc; cases e <;> simp_all [isClassifiedError, propagatedError]
  · intro m hm; subst hm; rfl
  · intro s hs; subst hs; rfl
  · intro m hm; subst hm; rfl

/-- C1 counterexample: a step throwing a plain (unclassified) `Error`
propagates that same error object — not the generic internal
`SystemError` wrapper the claim describes (the wrapper is only sent to
telemetry). -/
theorem c1_counterexample :
    (wrapRunMigration (fun c => (some (ThrownV.plainError "boom"), c))
        ⟨⟨[], []⟩, ⟨[], []⟩, [], []⟩).1 = some (ThrownV.plainError "boom")
    ∧ isSystemErrorV (ThrownV.plainError "boom") = false
    ∧ isClassifiedError (ThrownV.plainError "boom") = false
    ∧ classifyError (ThrownV.plainError "boom")
        = ThrownV.systemError "UnhandledError" "boom" := by
  exact ⟨rfl, rfl, rfl, rfl⟩

/-- C1 witness: the amended behaviour at a concrete failing step. -/
theorem c1_witness :
    wrapRunMigration (fun c => (some (ThrownV.userError "Err" "msg"), c))
        ⟨⟨[("a.txt", "x")], []⟩, ⟨[], []⟩, [], []⟩
      = (some (propagatedError (ThrownV.userError "Err" "msg")),
         MigrationContext.cleanTeamsfx
           (MigrationContext.restoreBackup
             (MigrationContext.cleanModifiedPaths
               ⟨⟨[("a.txt", "x")], []⟩, ⟨[], []⟩, [], []⟩)))
    ∧ propagatedError (ThrownV.userError "Err" "msg") = ThrownV.userError "Err" "msg" :=
  ⟨(c1_wrapRunMigration_rollback (fun c => (some (ThrownV.userError "Err" "msg"), c))
      ⟨⟨[("a.txt", "x")], []⟩, ⟨[], []⟩, [], []⟩
      ⟨⟨[("a.txt", "x")], []⟩, ⟨[], []⟩, [], []⟩
      (ThrownV.userError "Err" "msg") rfl).1,
   (c1_wrapRunMigration_rollback (fun c => (some (ThrownV.userError "Err" "msg"), c))
      ⟨⟨[("a.txt", "x")], []⟩, ⟨[], []⟩, [], []⟩
      ⟨⟨[("a.txt", "x")], []⟩, ⟨[], []⟩, [], []⟩
      (ThrownV.userError "Err" "msg") rfl).2.1 rfl⟩

/-! ## C3: the pipeline is the fixed sequence of six steps -/

theorem runSteps_cons (s : Migration) (l : List Migration) (ctx : MigrationContext) :
    runSteps (s :: l) ctx = bindStep (s ctx) (runSteps l) := by
  rcases hs : s ctx with ⟨o, c⟩
  cases o <;> simp [runSteps, bindStep, hs]

theorem runSteps_nil (ctx : MigrationContext) : runSteps [] ctx = (none, ctx) := rfl

/-- C3: the core pipeline consists of exactly the six steps, in the fixed
order pre-migration backup, settings generation, app.yml generation,
manifest placeholder rewrite, state/env conversion, launch-config
rewrite; `migrate` runs them strictly sequentially on the one shared
context — each step receives the context produced by the previous one,
and a step that throws stops the pipeline (later steps never start). -/
theorem c3_migrate_six_sequential_steps :
    subMigrations = [preMigration, generateSettingsJson, generateAppYml,
      replacePlaceholderForManifests, statesMigration, updateLaunchJson]
    ∧ subMigrations.length = 6
    ∧ (∀ ctx : MigrationContext,
        migrate ctx =
          bindStep (bindStep (bindStep (bindStep (bindStep
            (preMigration ctx)
            generateSettingsJson)
            generateAppYml)
            replacePlaceholderForManifests)
            statesMigration)
            updateLaunchJson)
    ∧ (∀ (e : ThrownV) (c : MigrationContext) (step : Migration),
        bindStep (some e, c) step = (some e, c))
    ∧ (∀ (c : MigrationContext) (step : Migration),
        bindStep (none, c) step = step c) := by
  refine ⟨rfl, rfl, ?_, fun e c step => rfl, fun c step => rfl⟩
  intro ctx
  show runSteps subMigrations ctx = _
  rw [show subMigrations = [preMigration, generateSettingsJson, generateAppYml,
        replacePlaceholderForManifests, statesMigration, updateLaunchJson] from rfl]
  rw [runSteps_cons]
  rcases h1 : preMigration ctx with ⟨o1, c1⟩
  cases o1 with
  | some e => simp [bindStep, runSteps]
  | none =>
      simp only [bindStep]
      rw [runSteps_cons]
      rcases h2 : generateSettingsJson c1 with ⟨o2, c2⟩
      cases o2 with
      | some e => simp [bindStep, runSteps]
      | none =>
          simp only [bindStep]
          rw [runSteps_cons]
          rcases h3 : generateAppYml c2 with ⟨o3, c3⟩
          cases o3 with
          | some e => simp [bindStep, runSteps]
          | none =>
              simp only [bindStep]
              rw [runSteps_cons]
              rcases h4 : replacePlaceholderForManifests c3 with ⟨o4, c4⟩
              cases o4 with
              | some e => simp [bindStep, runSteps]
              | none =>
                  simp only [bindStep]
                  rw [runSteps_cons]
                  rcases h5 : statesMigration c4 with ⟨o5, c5⟩
                  cases o5 with
                  | some e => simp [bindStep, runSteps]
                  | none =>
                      simp only [bindStep]
                      rw [runSteps_cons]
                      rcases h6 : updateLaunchJson c5 with ⟨o6, c6⟩
                      cases o6 <;> simp [bindStep, runSteps]

/-! ## C8: launch.json token substitution -/

theorem replaceAllL_nil (pat rep : List Char) : replaceAllL pat rep [] = [] := by
  simp [replaceAllL]

/-- A text with no occurrence of the pattern is left unchanged. -/
theorem replaceAllL_no_occurrence (pat rep : List Char) :
    ∀ (s : List Char), ¬ (pat <:+: s) → replaceAllL pat rep s = s := by
  intro s
  induction s with
  | nil => intro h; simp [replaceAllL]
  | cons c cs ih =>
      intro h
      rw [replaceAllL]
      rw [dif_neg]
      · rw [ih (fun hin => h (List.infix_cons hin))]
      · rintro ⟨hne, hpre⟩
        exact h (List.IsPrefix.isInfix (List.isPrefixOf_iff_prefix.mp hpre))

/-- An occurrence at the head is replaced, and scanning resumes after
it (occurrences are replaced left to right, non-overlapping). -/
theorem replaceAllL_head_match (pat rep : List Char) (s : List Char) (hne : pat ≠ []) :
    replaceAllL pat rep (pat ++ s) = rep ++ replaceAllL pat rep s := by
  cases hp : pat with
  | nil => exact absurd hp hne
  | cons p ps =>
      subst hp
      rw [show (p :: ps) ++ s = p :: (ps ++ s) from rfl]
      rw [replaceAllL]
      rw [dif_pos ⟨by simp, List.isPrefixOf_iff_prefix.mpr
            (by rw [show p :: (ps ++ s) = (p :: ps) ++ s from rfl]
                exact List.prefix_append _ _)⟩]
      rw [show p :: (ps ++ s) = (p :: ps) ++ s from rfl]
      rw [show ((p :: ps) ++ s).drop (p :: ps).length = s from List.drop_left _ _]

theorem backup_fs_unchanged (ctx : MigrationContext) (p : String) :
    (ctx.backup p).2.fs = ctx.fs := by
  unfold MigrationContext.backup
  split <;> rfl

/-- C8: when the legacy `.vscode/launch.json` exists, `updateLaunchJson`
backs it up and rewrites its text by exactly the three literal global
substitutions `${teamsAppId}`→`${dev:teamsAppId}`,
`${localTeamsAppId}`→`${local:teamsAppId}`,
`${localTeamsAppInternalId}`→`${local:teamsAppInternalId}` (applied in
that order); text containing none of the three tokens is unchanged, and a
token occurrence at the head of the text is replaced with scanning
resuming after it.  When the file does not exist, the step performs no
mutation and is not an error. -/
theorem c8_updateLaunchJson_substitution (ctx : MigrationContext) (content : String) :
    (fsPathExists ctx ".vscode/launch.json" = true →
      getFile ctx.fs ".vscode/launch.json" = some content →
      updateLaunchJson ctx
        = (none, fsWriteFile (ctx.backup ".vscode/launch.json").2 ".vscode/launch.json"
            (launchJsonSubstitute content)))
    ∧ (fsPathExists ctx ".vscode/launch.json" = false →
        updateLaunchJson ctx = (none, ctx))
    ∧ (∀ s : String,
        ¬ (("${teamsAppId}" : String).data <:+: s.data) →
        ¬ (("${localTeamsAppId}" : String).data <:+: s.data) →
        ¬ (("${localTeamsAppInternalId}" : String).data <:+: s.data) →
        launchJsonSubstitute s = s)
    ∧ (∀ s : List Char,
        replaceAllL ("${teamsAppId}" : String).data ("${dev:teamsAppId}" : String).data
            (("${teamsAppId}" : String).data ++ s)
          = ("${dev:teamsAppId}" : String).data ++
            replaceAllL ("${teamsAppId}" : String).data ("${dev:teamsAppId}" : String).data s) := by
  refine ⟨?_, ?_, ?_, ?_⟩
  · intro h1 h2
    simp only [updateLaunchJson, h1, if_true]
    rw [backup_fs_unchanged, h2]
  · intro h1
    simp [updateLaunchJson, h1]
  · intro s hs1 hs2 hs3
    unfold launchJsonSubstitute replaceAllStr
    rw [replaceAllL_no_occurrence _ _ _ hs1]
    rw [show String.mk s.data = s from rfl]
    rw [replaceAllL_no_occurrence _ _ _ hs2]
    rw [show String.mk s.data = s from rfl]
    rw [replaceAllL_no_occurrence _ _ _ hs3]
  · intro s
    exact replaceAllL_head_match _ _ s (by decide)

/-- C8 witness: concrete instances — an existing `launch.json` is
rewritten through the substitution chain; a missing one leaves the
context untouched with no error; token-free text is unchanged. -/
theorem c8_witness :
    updateLaunchJson
        ⟨⟨[(".vscode/launch.json", "id ${teamsAppId} end")], []⟩, ⟨[], []⟩, [], []⟩
      = (none,
         fsWriteFile
           ((⟨⟨[(".vscode/launch.json", "id ${teamsAppId} end")], []⟩,
              ⟨[], []⟩, [], []⟩ : MigrationContext).backup ".vscode/launch.json").2
           ".vscode/launch.json" (launchJsonSubstitute "id ${teamsAppId} end"))
    ∧ updateLaunchJson ⟨⟨[], []⟩, ⟨[], []⟩, [], []⟩ = (none, ⟨⟨[], []⟩, ⟨[], []⟩, [], []⟩)
    ∧ launchJsonSubstitute "plain text" = "plain text" :=
  ⟨(c8_updateLaunchJson_substitution
      ⟨⟨[(".vscode/launch.json", "id ${teamsAppId} end")], []⟩, ⟨[], []⟩, [], []⟩
      "id ${teamsAppId} end").1 rfl rfl,
   (c8_updateLaunchJson_substitution ⟨⟨[], []⟩, ⟨[], []⟩, [], []⟩ "").2.1 rfl,
   (c8_updateLaunchJson_substitution ⟨⟨[], []⟩, ⟨[], []⟩, [], []⟩ "").2.2.1
     "plain text" (by decide) (by decide) (by decide)⟩

/-! ## Filesystem preservation lemmas -/

theorem find?_filter_of_imp {α : Type} (pr keep : α → Bool) :
    ∀ (l : List α), (∀ a ∈ l, pr a = true → keep a = true) →
      (l.filter keep).find? pr = l.find? pr := by
  intro l
  induction l with
  | nil => intro h; rfl
  | cons a t ih =>
      intro h
      have ht : ∀ b ∈ t, pr b = true → keep b = true :=
        fun b hb => h b (List.mem_cons_of_mem a hb)
      by_cases hpa : pr a = true
      · have hka := h a (List.mem_cons_self a t) hpa
        simp [List.filter_cons, hka, List.find?_cons, hpa]
      · have hpa' : pr a = false := by simp [hpa]
        cases hka : keep a
        · simp [List.filter_cons, hka, List.find?_cons, hpa', ih ht]
        · simp [List.filter_cons, hka, List.find?_cons, hpa', ih ht]

theorem any_filter_of_imp {α : Type} (pr keep : α → Bool) :
    ∀ (l : List α), (∀ a ∈ l, pr a = true → keep a = true) →
      (l.filter keep).any pr = l.any pr := by
  intro l
  induction l with
  | nil => intro h; rfl
  | cons a t ih =>
      intro h
      have ht : ∀ b ∈ t, pr b = true → keep b = true :=
        fun b hb => h b (List.mem_cons_of_mem a hb)
      by_cases hpa : pr a = true
      · have hka := h a (List.mem_cons_self a t) hpa
        simp [List.filter_cons, hka, List.any_cons, hpa]
      · have hpa' : pr a = false := by simp [hpa]
        cases hka : keep a
        · simp [List.filter_cons, hka, List.any_cons, hpa', ih ht]
        · simp [List.filter_cons, hka, List.any_cons, hpa', ih ht]

theorem append_ne_append (a b x y : String) (n : Nat)
    (h1 : n < a.data.length) (h2 : n < b.data.length)
    (h3 : a.data[n]? ≠ b.data[n]?) : a ++ x ≠ b ++ y := by
  intro h
  have hd : (a ++ x).data = (b ++ y).data := congrArg String.data h
  rw [String.data_append, String.data_append] at hd
  have e1 : (a.data ++ x.data)[n]? = a.data[n]? := List.getElem?_append_left h1
  have e2 : (b.data ++ y.data)[n]? = b.data[n]? := List.getElem?_append_left h2
  apply h3
  rw [← e1, ← e2, hd]

theorem const_ne_append (b a x : String) (n : Nat)
    (h1 : n < a.data.length) (h2 : n < b.data.length)
    (h3 : b.data[n]? ≠ a.data[n]?) : b ≠ a ++ x := by
  intro h
  have h' : b ++ "" ≠ a ++ x := append_ne_append b a "" x n h2 h1 h3
  rw [String.append_empty] at h'
  exact h' h

theorem append_left_cancel_str (a x y : String) (h : a ++ x = a ++ y) : x = y := by
  have hd := congrArg String.data h
  rw [String.data_append, String.data_append] at hd
  exact String.ext (List.append_cancel_left hd)

theorem underPath_false_of_not_family (dst q : String)
    (h : ∀ z : String, q ≠ dst ++ z) : underPath dst q = false := by
  have h1 : (q == dst) = false := by
    apply beq_false_of_ne
    intro he
    exact h "" (by rw [String.append_empty]; exact he)
  by_cases hp : (dst ++ "/").data.isPrefixOf q.data = true
  · exfalso
    obtain ⟨t, ht⟩ := List.isPrefixOf_iff_prefix.mp hp
    have : q = (dst ++ "/") ++ String.mk t := by
      apply String.ext
      rw [String.data_append, ← ht]
    rw [String.append_assoc] at this
    exact h ("/" ++ String.mk t) this
  · unfold underPath
    rw [h1, Bool.false_or]
    exact Bool.eq_false_iff.mpr hp

theorem getFile_some_pathExists (fs : Fs) (p c : String)
    (h : getFile fs p = some c) : pathExistsFs fs p = true := by
  unfold getFile at h
  rcases hf : fs.files.find? (fun e => e.1 == p) with _ | e
  · rw [hf] at h; cases h
  · unfold pathExistsFs
    have hmem := List.mem_of_find?_eq_some hf
    have hpred := List.find?_some hf
    have : fs.files.any (fun e => e.1 == p) = true :=
      List.any_eq_true.mpr ⟨e, hmem, hpred⟩
    simp [this]

theorem getFile_setFile_eq (fs : Fs) (p v : String) :
    getFile (setFile fs p v) p = some v := by
  unfold getFile setFile
  rw [List.find?_append]
  have hnone : (fs.files.filter (fun e => e.1 != p)).find? (fun e => e.1 == p) = none := by
    rw [List.find?_eq_none]
    intro e he
    have := (List.mem_filter.mp he).2
    simp only [bne_iff_ne, ne_eq] at this
    simp [this]
  rw [hnone]
  simp [List.find?_cons]

theorem getFile_setFile_ne (fs : Fs) (p v q : String) (h : q ≠ p) :
    getFile (setFile fs p v) q = getFile fs q := by
  unfold getFile setFile
  rw [List.find?_append]
  have hfilter := find?_filter_of_imp (fun e => e.1 == q) (fun e => e.1 != p) fs.files
    (by intro a _ ha
        have : a.1 = q := by simpa using ha
        simp [bne, this, beq_false_of_ne h])
  rw [hfilter]
  have hlast : ([(p, v)].find? (fun e => e.1 == q)) = none := by
    simp [List.find?_cons, beq_false_of_ne (fun he => h he.symm)]
  rw [hlast]
  rcases hf : fs.files.find? (fun e => e.1 == q) with _ | e <;> simp

theorem pathExists_setFile_ne (fs : Fs) (p v q : String) (h : q ≠ p) :
    pathExistsFs (setFile fs p v) q = pathExistsFs fs q := by
  unfold pathExistsFs setFile
  simp only [List.any_append]
  have hfilter := any_filter_of_imp (fun e => e.1 == q) (fun e => e.1 != p) fs.files
    (by intro a _ ha
        have : a.1 = q := by simpa using ha
        simp [bne, this, beq_false_of_ne h])
  rw [hfilter]
  have : ([(p, v)].any (fun e => e.1 == q)) = false := by
    simp [beq_false_of_ne (fun he => h he.symm)]
  rw [this]
  simp

theorem getFile_recordModified (ctx : MigrationContext) (p q : String) :
    getFile (recordModified ctx p).fs q = getFile ctx.fs q := rfl

theorem getFile_fsWriteFile_eq (ctx : MigrationContext) (p v : String) :
    getFile (fsWriteFile ctx p v).fs p = some v := getFile_setFile_eq _ _ _

theorem getFile_fsWriteFile_ne (ctx : MigrationContext) (p v q : String) (h : q ≠ p) :
    getFile (fsWriteFile ctx p v).fs q = getFile ctx.fs q := getFile_setFile_ne _ _ _ _ h

theorem getFile_fsEnsureDir (ctx : MigrationContext) (d q : String) :
    getFile (fsEnsureDir ctx d).fs q = getFile ctx.fs q := rfl

theorem fsCreateFile_fs (ctx : MigrationContext) (p : String) :
    (fsCreateFile ctx p).fs
      = if (getFile ctx.fs p).isSome = true then ctx.fs else setFile ctx.fs p "" := rfl

theorem getFile_fsCreateFile_ne (ctx : MigrationContext) (p q : String) (h : q ≠ p) :
    getFile (fsCreateFile ctx p).fs q = getFile ctx.fs q := by
  rw [fsCreateFile_fs]
  split
  · rfl
  · exact getFile_setFile_ne _ _ _ _ h

theorem getFile_fsCreateFile_eq (ctx : MigrationContext) (p : String) :
    getFile (fsCreateFile ctx p).fs p = some ((getFile ctx.fs p).getD "") := by
  rw [fsCreateFile_fs]
  rcases hf : getFile ctx.fs p with _ | c
  · simp only [hf, Option.isSome_none, Bool.false_eq_true, if_false, Option.getD_none]
    exact getFile_setFile_eq _ _ _
  · simp [hf]

theorem getFile_backup (ctx : MigrationContext) (p q : String) :
    getFile (ctx.backup p).2.fs q = getFile ctx.fs q := by
  rw [backup_fs_unchanged]

theorem pathExists_backup (ctx : MigrationContext) (p q : String) :
    pathExistsFs (ctx.backup p).2.fs q = pathExistsFs ctx.fs q := by
  rw [backup_fs_unchanged]

theorem fsEnsureDir_fs (ctx : MigrationContext) (d : String) :
    (fsEnsureDir ctx d).fs
      = { files := ctx.fs.files,
          dirs := if d ∈ ctx.fs.dirs then ctx.fs.dirs else ctx.fs.dirs ++ [d] } := rfl

theorem pathExists_fsEnsureDir_ne (ctx : MigrationContext) (d q : String) (h : q ≠ d) :
    pathExistsFs (fsEnsureDir ctx d).fs q = pathExistsFs ctx.fs q := by
  rw [fsEnsureDir_fs]
  unfold pathExistsFs
  simp only []
  split
  · rfl
  · simp only [List.any_append]
    have hlast : ([d].any (fun x => x == q)) = false := by
      simp [beq_false_of_ne (fun he => h he.symm)]
    rw [hlast]
    simp

theorem fsCopy_fs (ctx : MigrationContext) (src dst : String) :
    (fsCopy ctx src dst).fs
      = { files := ctx.fs.files.filter (fun e => !underPath dst e.1) ++
                   ctx.fs.files.filterMap (fun e =>
                     if underPath src e.1 then some (dst ++ dropRoot src e.1, e.2) else none),
          dirs := ctx.fs.dirs.filter (fun d => !underPath dst d) ++
                  ctx.fs.dirs.filterMap (fun d =>
                    if underPath src d then some (dst ++ dropRoot src d) else none) } := rfl

theorem getFile_fsCopy_not_family (ctx : MigrationContext) (src dst q : String)
    (h : ∀ z : String, q ≠ dst ++ z) :
    getFile (fsCopy ctx src dst).fs q = getFile ctx.fs q := by
  rw [fsCopy_fs]
  unfold getFile
  simp only [List.find?_append]
  have hU := underPath_false_of_not_family dst q h
  have hfilter := find?_filter_of_imp (fun e => e.1 == q)
    (fun e => !underPath dst e.1) ctx.fs.files
    (by intro a _ ha
        have ha' : a.1 = q := by simpa using ha
        simp [ha', hU])
  rw [hfilter]
  have hcopied : ((ctx.fs.files.filterMap (fun e =>
      if underPath src e.1 then some (dst ++ dropRoot src e.1, e.2) else none)).find?
        (fun e => e.1 == q)) = none := by
    rw [List.find?_eq_none]
    intro e he
    obtain ⟨a, _, hfa⟩ := List.mem_filterMap.mp he
    by_cases hu : underPath src a.1 = true
    · rw [if_pos hu] at hfa
      have hfa' := Option.some.inj hfa
      subst hfa'
      simp [beq_false_of_ne (fun heq => h (dropRoot src a.1) heq.symm)]
    · rw [if_neg hu] at hfa; cases hfa
  rw [hcopied]
  rcases hf : ctx.fs.files.find? (fun e => e.1 == q) with _ | e <;> simp

theorem pathExists_fsCopy_not_family (ctx : MigrationContext) (src dst q : String)
    (h : ∀ z : String, q ≠ dst ++ z) :
    pathExistsFs (fsCopy ctx src dst).fs q = pathExistsFs ctx.fs q := by
  rw [fsCopy_fs]
  unfold pathExistsFs
  simp only [List.any_append]
  have hU := underPath_false_of_not_family dst q h
  have hfileFilter := any_filter_of_imp (fun e => e.1 == q)
    (fun e => !underPath dst e.1) ctx.fs.files
    (by intro a _ ha
        have ha' : a.1 = q := by simpa using ha
        simp [ha', hU])
  have hdirFilter := any_filter_of_imp (fun d => d == q)
    (fun d => !underPath dst d) ctx.fs.dirs
    (by intro a _ ha
        have ha' : a = q := by simpa using ha
        simp [ha', hU])
  rw [hfileFilter, hdirFilter]
  have hcf : ((ctx.fs.files.filterMap (fun e =>
      if underPath src e.1 then some (dst ++ dropRoot src e.1, e.2) else none)).any
        (fun e => e.1 == q)) = false := by
    rw [List.any_eq_false]
    intro e he
    obtain ⟨a, _, hfa⟩ := List.mem_filterMap.mp he
    by_cases hu : underPath src a.1 = true
    · rw [if_pos hu] at hfa
      have hfa' := Option.some.inj hfa
      subst hfa'
      simp [beq_false_of_ne (fun heq => h (dropRoot src a.1) heq.symm)]
    · rw [if_neg hu] at hfa; cases hfa
  have hcd : ((ctx.fs.dirs.filterMap (fun d =>
      if underPath src d then some (dst ++ dropRoot src d) else none)).any
        (fun d => d == q)) = false := by
    rw [List.any_eq_false]
    intro e he
    obtain ⟨a, _, hfa⟩ := List.mem_filterMap.mp he
    by_cases hu : underPath src a = true
    · rw [if_pos hu] at hfa
      have hfa' := Option.some.inj hfa
      subst hfa'
      simp [beq_false_of_ne (fun heq => h (dropRoot src a) heq.symm)]
    · rw [if_neg hu] at hfa; cases hfa
  rw [hcf, hcd]
  cases hx : ctx.fs.files.any (fun e => e.1 == q) <;>
    cases hy : ctx.fs.dirs.any (fun d => d == q) <;> simp

theorem backup_fst (ctx : MigrationContext) (p : String) :
    (ctx.backup p).1 = pathExistsFs ctx.fs p := by
  unfold MigrationContext.backup
  split <;> simp_all

/-! ## C4: manifest rewrite — required vs optional artifacts -/

theorem fsWriteFile_fs (ctx : MigrationContext) (p v : String) :
    (fsWriteFile ctx p v).fs = setFile ctx.fs p v := rfl

theorem pathExists_fsWriteFile_ne (ctx : MigrationContext) (p v q : String) (h : q ≠ p) :
    pathExistsFs (fsWriteFile ctx p v).fs q = pathExistsFs ctx.fs q := by
  rw [fsWriteFile_fs]
  exact pathExists_setFile_ne _ _ _ _ h

theorem backup_snd_not_exists (ctx : MigrationContext) (p : String)
    (h : pathExistsFs ctx.fs p = false) : (ctx.backup p).2 = ctx := by
  unfold MigrationContext.backup
  rw [h]
  simp

theorem bicep_ne_res_family :
    ∀ z : String, "templates/azure/provision.bicep" ≠ "appPackage/resources" ++ z :=
  fun z => const_ne_append _ _ z 0 (by decide) (by decide) (by decide)

theorem man_ne_res_family :
    ∀ z : String, "templates/appPackage/manifest.template.json" ≠ "appPackage/resources" ++ z :=
  fun z => const_ne_append _ _ z 0 (by decide) (by decide) (by decide)

theorem aadT_ne_res_family :
    ∀ z : String, "templates/appPackage/aad.template.json" ≠ "appPackage/resources" ++ z :=
  fun z => const_ne_append _ _ z 0 (by decide) (by decide) (by decide)

theorem outAad_ne_res_family :
    ∀ z : String, "aad.manifest.template.json" ≠ "appPackage/resources" ++ z :=
  fun z => const_ne_append _ _ z 1 (by decide) (by decide) (by decide)

/-- C4: in the manifest placeholder-rewrite step, absence of
`templates/appPackage`, of `templates/azure/provision.bicep`, or of the
primary manifest template `templates/appPackage/manifest.template.json`
is a hard error that throws; absence of the identity manifest template
`aad.template.json` is silently skipped — the step succeeds, writes the
rewritten primary manifest, and produces no `aad.manifest.template.json`. -/
theorem c4_manifest_required_aad_optional (ctx : MigrationContext) (bc mc : String) :
    (pathExistsFs ctx.fs "templates/appPackage" = false →
      replacePlaceholderForManifests ctx
        = (some (ReadFileError "templates/appPackage does not exist"), ctx))
    ∧ (pathExistsFs ctx.fs "templates/appPackage" = true →
       pathExistsFs ctx.fs "templates/azure/provision.bicep" = false →
       (replacePlaceholderForManifests ctx).1
         = some (ReadFileError "templates/azure/provision.bicep does not exist"))
    ∧ (pathExistsFs ctx.fs "templates/appPackage" = true →
       getFile ctx.fs "templates/azure/provision.bicep" = some bc →
       pathExistsFs ctx.fs "templates/appPackage/manifest.template.json" = false →
       (replacePlaceholderForManifests ctx).1
         = some (ReadFileError "templates/appPackage/manifest.template.json does not exist"))
    ∧ (pathExistsFs ctx.fs "templates/appPackage" = true →
       getFile ctx.fs "templates/azure/provision.bicep" = some bc →
       getFile ctx.fs "templates/appPackage/manifest.template.json" = some mc →
       pathExistsFs ctx.fs "templates/appPackage/aad.template.json" = false →
       getFile ctx.fs "aad.manifest.template.json" = none →
       (replacePlaceholderForManifests ctx).1 = none
       ∧ getFile (replacePlaceholderForManifests ctx).2.fs "aad.manifest.template.json" = none
       ∧ getFile (replacePlaceholderForManifests ctx).2.fs "appPackage/manifest.template.json"
           = some (replacePlaceholdersForV3 mc bc)) := by
  refine ⟨?_, ?_, ?_, ?_⟩
  · intro h
    simp only [replacePlaceholderForManifests]
    rw [backup_fst, h]
    simp only [Bool.not_false, if_true]
    rw [backup_snd_not_exists ctx _ h]
  · intro hApp hB
    simp only [replacePlaceholderForManifests]
    rw [backup_fst, hApp]
    simp only [Bool.not_true, Bool.false_eq_true, if_false]
    set ctx2 := fsEnsureDir (ctx.backup "templates/appPackage").2 "appPackage" with hc2
    have hb2 : pathExistsFs ctx2.fs "templates/azure/provision.bicep" = false := by
      rw [hc2, pathExists_fsEnsureDir_ne _ _ _ (by decide), pathExists_backup]
      exact hB
    by_cases hres : fsPathExists ctx2 "templates/appPackage/resources" = true
    · rw [if_pos hres]
      have hb3 : fsPathExists (fsCopy ctx2 "templates/appPackage/resources"
          "appPackage/resources") "templates/azure/provision.bicep" = false := by
        show pathExistsFs _ _ = false
        rw [pathExists_fsCopy_not_family _ _ _ _ bicep_ne_res_family]
        exact hb2
      rw [hb3]
      rfl
    · rw [if_neg hres]
      have hb2' : fsPathExists ctx2 "templates/azure/provision.bicep" = false := hb2
      rw [hb2']
      rfl
  · intro hApp hBc hMan
    simp only [replacePlaceholderForManifests]
    rw [backup_fst, hApp]
    simp only [Bool.not_true, Bool.false_eq_true, if_false]
    set ctx2 := fsEnsureDir (ctx.backup "templates/appPackage").2 "appPackage" with hc2
    have hg2 : getFile ctx2.fs "templates/azure/provision.bicep" = some bc := by
      rw [hc2, getFile_fsEnsureDir, getFile_backup]
      exact hBc
    have hm2 : pathExistsFs ctx2.fs "templates/appPackage/manifest.template.json" = false := by
      rw [hc2, pathExists_fsEnsureDir_ne _ _ _ (by decide), pathExists_backup]
      exact hMan
    by_cases hres : fsPathExists ctx2 "templates/appPackage/resources" = true
    · rw [if_pos hres]
      set ctx3 := fsCopy ctx2 "templates/appPackage/resources" "appPackage/resources" with hc3
      have hg3 : getFile ctx3.fs "templates/azure/provision.bicep" = some bc := by
        rw [hc3, getFile_fsCopy_not_family _ _ _ _ bicep_ne_res_family]
        exact hg2
      have hb3 : fsPathExists ctx3 "templates/azure/provision.bicep" = true :=
        getFile_some_pathExists _ _ _ hg3
      have hm3 : fsPathExists ctx3 "templates/appPackage/manifest.template.json" = false := by
        show pathExistsFs _ _ = false
        rw [hc3, pathExists_fsCopy_not_family _ _ _ _ man_ne_res_family]
        exact hm2
      rw [hb3]
      simp only [Bool.not_true, Bool.false_eq_true, if_false]
      simp only [hg3, hm3, Bool.false_eq_true, if_false]
    · rw [if_neg hres]
      have hb2' : fsPathExists ctx2 "templates/azure/provision.bicep" = true :=
        getFile_some_pathExists _ _ _ hg2
      have hm2' : fsPathExists ctx2 "templates/appPackage/manifest.template.json" = false := hm2
      rw [hb2']
      simp only [Bool.not_true, Bool.false_eq_true, if_false]
      simp only [hg2, hm2', Bool.false_eq_true, if_false]
  · intro hApp hBc hMan hAadT hOut
    simp only [replacePlaceholderForManifests]
    rw [backup_fst, hApp]
    simp only [Bool.not_true, Bool.false_eq_true, if_false]
    set ctx2 := fsEnsureDir (ctx.backup "templates/appPackage").2 "appPackage" with hc2
    have hg2 : getFile ctx2.fs "templates/azure/provision.bicep" = some bc := by
      rw [hc2, getFile_fsEnsureDir, getFile_backup]; exact hBc
    have hman2 : getFile ctx2.fs "templates/appPackage/manifest.template.json" = some mc := by
      rw [hc2, getFile_fsEnsureDir, getFile_backup]; exact hMan
    have haadT2 : pathExistsFs ctx2.fs "templates/appPackage/aad.template.json" = false := by
      rw [hc2, pathExists_fsEnsureDir_ne _ _ _ (by decide), pathExists_backup]; exact hAadT
    have hout2 : getFile ctx2.fs "aad.manifest.template.json" = none := by
      rw [hc2, getFile_fsEnsureDir, getFile_backup]; exact hOut
    by_cases hres : fsPathExists ctx2 "templates/appPackage/resources" = true
    · rw [if_pos hres]
      set ctx3 := fsCopy ctx2 "templates/appPackage/resources" "appPackage/resources" with hc3
      have hg3 : getFile ctx3.fs "templates/azure/provision.bicep" = some bc := by
        rw [hc3, getFile_fsCopy_not_family _ _ _ _ bicep_ne_res_family]; exact hg2
      have hman3 : getFile ctx3.fs "templates/appPackage/manifest.template.json" = some mc := by
        rw [hc3, getFile_fsCopy_not_family _ _ _ _ man_ne_res_family]; exact hman2
      have haadT3 : pathExistsFs ctx3.fs "templates/appPackage/aad.template.json" = false := by
        rw [hc3, pathExists_fsCopy_not_family _ _ _ _ aadT_ne_res_family]; exact haadT2
      have hout3 : getFile ctx3.fs "aad.manifest.template.json" = none := by
        rw [hc3, getFile_fsCopy_not_family _ _ _ _ outAad_ne_res_family]; exact hout2
      have hb3 : fsPathExists ctx3 "templates/azure/provision.bicep" = true :=
        getFile_some_pathExists _ _ _ hg3
      have hmanE3 : fsPathExists ctx3 "templates/appPackage/manifest.template.json" = true :=
        getFile_some_pathExists _ _ _ hman3
      rw [hb3]
      simp only [Bool.not_true, Bool.false_eq_true, if_false]
      simp only [hg3, hmanE3, if_true, hman3]
      have haadT4 : fsPathExists (fsWriteFile ctx3 "appPackage/manifest.template.json"
          (replacePlaceholdersForV3 mc bc)) "templates/appPackage/aad.template.json"
            = false := by
        show pathExistsFs _ _ = false
        rw [pathExists_fsWriteFile_ne _ _ _ _ (by decide)]
        exact haadT3
      simp only [haadT4, Bool.false_eq_true, if_false]
      refine ⟨trivial, ?_, ?_⟩
      · show getFile (fsWriteFile ctx3 "appPackage/manifest.template.json"
            (replacePlaceholdersForV3 mc bc)).fs "aad.manifest.template.json" = none
        rw [getFile_fsWriteFile_ne _ _ _ _ (by decide)]
        exact hout3
      · show getFile (fsWriteFile ctx3 "appPackage/manifest.template.json"
            (replacePlaceholdersForV3 mc bc)).fs "appPackage/manifest.template.json" = _
        exact getFile_fsWriteFile_eq _ _ _
    · rw [if_neg hres]
      have hb2' : fsPathExists ctx2 "templates/azure/provision.bicep" = true :=
        getFile_some_pathExists _ _ _ hg2
      have hmanE2 : fsPathExists ctx2 "templates/appPackage/manifest.template.json" = true :=
        getFile_some_pathExists _ _ _ hman2
      rw [hb2']
      simp only [Bool.not_true, Bool.false_eq_true, if_false]
      simp only [hg2, hmanE2, if_true, hman2]
      have haadT4 : fsPathExists (fsWriteFile ctx2 "appPackage/manifest.template.json"
          (replacePlaceholdersForV3 mc bc)) "templates/appPackage/aad.template.json"
            = false := by
        show pathExistsFs _ _ = false
        rw [pathExists_fsWriteFile_ne _ _ _ _ (by decide)]
        exact haadT2
      simp only [haadT4, Bool.false_eq_true, if_false]
      refine ⟨trivial, ?_, ?_⟩
      · show getFile (fsWriteFile ctx2 "appPackage/manifest.template.json"
            (replacePlaceholdersForV3 mc bc)).fs "aad.manifest.template.json" = none
        rw [getFile_fsWriteFile_ne _ _ _ _ (by decide)]
        exact hout2
      · show getFile (fsWriteFile ctx2 "appPackage/manifest.template.json"
            (replacePlaceholdersForV3 mc bc)).fs "appPackage/manifest.template.json" = _
        exact getFile_fsWriteFile_eq _ _ _

/-- C4 witness: the four behaviours at concrete project trees — missing
`templates/appPackage`, missing infra template, missing primary manifest,
and missing (optional) AAD template. -/
theorem c4_witness :
    replacePlaceholderForManifests ⟨⟨[], []⟩, ⟨[], []⟩, [], []⟩
      = (some (ReadFileError "templates/appPackage does not exist"),
         ⟨⟨[], []⟩, ⟨[], []⟩, [], []⟩)
    ∧ (replacePlaceholderForManifests
        ⟨⟨[], ["templates/appPackage"]⟩, ⟨[], []⟩, [], []⟩).1
      = some (ReadFileError "templates/azure/provision.bicep does not exist")
    ∧ (replacePlaceholderForManifests
        ⟨⟨[("templates/azure/provision.bicep", "b")], ["templates/appPackage"]⟩,
         ⟨[], []⟩, [], []⟩).1
      = some (ReadFileError "templates/appPackage/manifest.template.json does not exist")
    ∧ (replacePlaceholderForManifests
        ⟨⟨[("templates/azure/provision.bicep", "b"),
           ("templates/appPackage/manifest.template.json", "m")],
          ["templates/appPackage"]⟩, ⟨[], []⟩, [], []⟩).1 = none
    ∧ getFile (replacePlaceholderForManifests
        ⟨⟨[("templates/azure/provision.bicep", "b"),
           ("templates/appPackage/manifest.template.json", "m")],
          ["templates/appPackage"]⟩, ⟨[], []⟩, [], []⟩).2.fs
        "aad.manifest.template.json" = none
    ∧ getFile (replacePlaceholderForManifests
        ⟨⟨[("templates/azure/provision.bicep", "b"),
           ("templates/appPackage/manifest.template.json", "m")],
          ["templates/appPackage"]⟩, ⟨[], []⟩, [], []⟩).2.fs
        "appPackage/manifest.template.json" = some (replacePlaceholdersForV3 "m" "b") :=
  ⟨(c4_manifest_required_aad_optional ⟨⟨[], []⟩, ⟨[], []⟩, [], []⟩ "b" "m").1 rfl,
   (c4_manifest_required_aad_optional
      ⟨⟨[], ["templates/appPackage"]⟩, ⟨[], []⟩, [], []⟩ "b" "m").2.1 rfl rfl,
   (c4_manifest_required_aad_optional
      ⟨⟨[("templates/azure/provision.bicep", "b")], ["templates/appPackage"]⟩,
       ⟨[], []⟩, [], []⟩ "b" "m").2.2.1 rfl rfl rfl,
   ((c4_manifest_required_aad_optional
      ⟨⟨[("templates/azure/provision.bicep", "b"),
         ("templates/appPackage/manifest.template.json", "m")],
        ["templates/appPackage"]⟩, ⟨[], []⟩, [], []⟩ "b" "m").2.2.2
      rfl rfl rfl rfl rfl).1,
   ((c4_manifest_required_aad_optional
      ⟨⟨[("templates/azure/provision.bicep", "b"),
         ("templates/appPackage/manifest.template.json", "m")],
        ["templates/appPackage"]⟩, ⟨[], []⟩, [], []⟩ "b" "m").2.2.2
      rfl rfl rfl rfl rfl).2.1,
   ((c4_manifest_required_aad_optional
      ⟨⟨[("templates/azure/provision.bicep", "b"),
         ("templates/appPackage/manifest.template.json", "m")],
        ["templates/appPackage"]⟩, ⟨[], []⟩, [], []⟩ "b" "m").2.2.2
      rfl rfl rfl rfl rfl).2.2⟩

/-! ## C5: state/env conversion -/

theorem statePath_ne_env_family (env : String) :
    ∀ e : String, ".fx/states/state." ++ env ++ ".json" ≠ "teamsfx/.env." ++ e :=
  fun e => append_ne_append ".fx/states/state." "teamsfx/.env."
    (env ++ ".json") e 0 (by decide) (by decide) (by decide)

theorem bicep_ne_env_family :
    ∀ e : String, "templates/azure/provision.bicep" ≠ "teamsfx/.env." ++ e :=
  fun e => const_ne_append _ _ e 2 (by decide) (by decide) (by decide)

theorem env_family_cancel (E env : String)
    (h : ("teamsfx/.env." ++ E : String) = "teamsfx/.env." ++ env) : E = env :=
  append_left_cancel_str _ _ _ h

/-- The paths `processStateFile` can write all lie in the
`teamsfx/.env.<env>` family of the matched environment (plus the
`teamsfx` directory, which is not a file). -/
theorem processState_getFile_ne_env (ctx : MigrationContext) (name env q : String)
    (henv : stateEnvName? name = some env)
    (hq : q ≠ "teamsfx/.env." ++ env) :
    getFile (processStateFile ctx name).fs q = getFile ctx.fs q := by
  simp only [processStateFile, henv]
  rcases hr : readStateFile (fsCreateFile (fsEnsureDir ctx "teamsfx")
      ("teamsfx/.env." ++ env)) (".fx/states/state." ++ env ++ ".json") with _ | obj
  · rw [getFile_fsCreateFile_ne _ _ _ hq, getFile_fsEnsureDir]
  · rw [getFile_fsWriteFile_ne _ _ _ _ hq, getFile_fsCreateFile_ne _ _ _ hq,
        getFile_fsEnsureDir]

theorem processState_getFile_ne (ctx : MigrationContext) (name q : String)
    (hq : ∀ e : String, q ≠ "teamsfx/.env." ++ e) :
    getFile (processStateFile ctx name).fs q = getFile ctx.fs q := by
  rcases henv : stateEnvName? name with _ | env
  · simp only [processStateFile, henv]
  · exact processState_getFile_ne_env ctx name env q henv (hq env)

/-- Processing a directory entry that matched environment `env` writes
the renamed key/value pairs of the (parsable) state document into
`teamsfx/.env.<env>`. -/
theorem processState_writes (ctx : MigrationContext) (name env content : String)
    (obj : StateObj)
    (henv : stateEnvName? name = some env)
    (hstate : getFile ctx.fs (".fx/states/state." ++ env ++ ".json") = some content)
    (hparse : parseStateContent content = some obj) :
    getFile (processStateFile ctx name).fs ("teamsfx/.env." ++ env)
      = some (jsonObjectNamesConvertV3 obj "state." (readBicepContent ctx)) := by
  simp only [processStateFile, henv]
  have hstate2 : getFile (fsCreateFile (fsEnsureDir ctx "teamsfx")
      ("teamsfx/.env." ++ env)).fs (".fx/states/state." ++ env ++ ".json") = some content := by
    rw [getFile_fsCreateFile_ne _ _ _ (statePath_ne_env_family env env), getFile_fsEnsureDir]
    exact hstate
  have hread : readStateFile (fsCreateFile (fsEnsureDir ctx "teamsfx")
      ("teamsfx/.env." ++ env)) (".fx/states/state." ++ env ++ ".json") = some obj := by
    unfold readStateFile
    simp only [hstate2]
    exact hparse
  simp only [hread]
  have hbicep : readBicepContent (fsCreateFile (fsEnsureDir ctx "teamsfx")
      ("teamsfx/.env." ++ env)) = readBicepContent ctx := by
    unfold readBicepContent
    rw [getFile_fsCreateFile_ne _ _ _ (bicep_ne_env_family env), getFile_fsEnsureDir]
  rw [hbicep]
  exact getFile_fsWriteFile_eq _ _ _

theorem takeWhile_all_eq_self {p : Char → Bool} :
    ∀ (l : List Char), l.all p = true → l.takeWhile p = l := by
  intro l
  induction l with
  | nil => intro h; rfl
  | cons c cs ih =>
      intro h
      rw [List.all_cons, Bool.and_eq_true] at h
      rw [List.takeWhile_cons, if_pos h.1, ih h.2]

/-- A file name of the exact shape `state.<env>.json`, with `env` made of
word characters, matches the `statesMigration` file regex and captures
`env`. -/
theorem stateEnvName_exact (env : String) (hw : env.data.all isWordChar = true) :
    stateEnvName? ("state." ++ env ++ ".json") = some env := by
  have hdata : ("state." ++ env ++ ".json").data
      = "state.".data ++ (env.data ++ ".json".data) := rfl
  have hmatch : stateMatchHere ("state.".data ++ (env.data ++ ".json".data)) = some env := by
    simp only [stateMatchHere]
    rw [show ("state.".data.isPrefixOf ("state.".data ++ (env.data ++ ".json".data))) = true
          from List.isPrefixOf_iff_prefix.mpr (List.prefix_append _ _)]
    simp only [if_true]
    rw [show ("state.".data ++ (env.data ++ ".json".data)).drop 6 = env.data ++ ".json".data
          from List.drop_left "state.".data (env.data ++ ".json".data)]
    rw [List.takeWhile_append]
    rw [takeWhile_all_eq_self env.data hw]
    rw [show (".json".data.takeWhile isWordChar) = ([] : List Char) from rfl]
    rw [List.append_nil]
    rw [if_pos rfl]
    rw [show (env.data ++ ".json".data).drop env.data.length = ".json".data
          from List.drop_left env.data ".json".data]
    rw [show (".json".data.isPrefixOf ".json".data) = true
          from List.isPrefixOf_iff_prefix.mpr (List.prefix_refl _)]
    rfl
  unfold stateEnvName?
  rw [hdata]
  have hcons : "state.".data ++ (env.data ++ ".json".data)
      = 's' :: ("tate.".data ++ (env.data ++ ".json".data)) := rfl
  rw [hcons]
  rw [stateEnvName?.go]
  rw [← hcons, hmatch]

/-- Folding `processStateFile` over the directory entries ends with
`teamsfx/.env.<env>` holding the renamed pairs of `state.<env>.json`,
whenever that file name is among the entries (or the file already holds
that content). -/
theorem foldState_writes (env content : String) (obj : StateObj) (bopt : Option String)
    (hw : env.data.all isWordChar = true) :
    ∀ (names : List String) (ctx : MigrationContext),
      getFile ctx.fs (".fx/states/state." ++ env ++ ".json") = some content →
      parseStateContent content = some obj →
      getFile ctx.fs "templates/azure/provision.bicep" = bopt →
      (("state." ++ env ++ ".json") ∈ names ∨
        getFile ctx.fs ("teamsfx/.env." ++ env)
          = some (jsonObjectNamesConvertV3 obj "state." (bopt.getD ""))) →
      getFile ((names.foldl processStateFile ctx)).fs ("teamsfx/.env." ++ env)
        = some (jsonObjectNamesConvertV3 obj "state." (bopt.getD "")) := by
  intro names
  induction names with
  | nil =>
      intro ctx _ _ _ hd
      rcases hd with hmem | hval
      · cases hmem
      · simpa using hval
  | cons name rest ih =>
      intro ctx hstate hparse hb hd
      simp only [List.foldl_cons]
      have hstate' : getFile (processStateFile ctx name).fs
          (".fx/states/state." ++ env ++ ".json") = some content := by
        rw [processState_getFile_ne _ _ _ (statePath_ne_env_family env)]
        exact hstate
      have hb' : getFile (processStateFile ctx name).fs
          "templates/azure/provision.bicep" = bopt := by
        rw [processState_getFile_ne _ _ _ bicep_ne_env_family]
        exact hb
      have hrb : readBicepContent ctx = bopt.getD "" := by
        unfold readBicepContent
        rw [hb]
        cases bopt <;> rfl
      apply ih _ hstate' hparse hb'
      rcases hd with hmem | hval
      · rcases List.mem_cons.mp hmem with heq | hmem'
        · right
          have henv : stateEnvName? name = some env := by
            rw [← heq]
            exact stateEnvName_exact env hw
          have hwv := processState_writes ctx name env content obj henv hstate hparse
          rw [hrb] at hwv
          exact hwv
        · left
          exact hmem'
      · right
        rcases henv : stateEnvName? name with _ | envB
        · simpa [processStateFile, henv] using hval
        · by_cases he : envB = env
          · subst he
            have hwv := processState_writes ctx name envB content obj henv hstate hparse
            rw [hrb] at hwv
            exact hwv
          · rw [processState_getFile_ne_env ctx name envB _ henv
                (fun hc => he (env_family_cancel env envB hc).symm)]
            exact hval

/-- No `teamsfx/.env.<E>` file is created for an environment `E` with no
matching state file among the directory entries. -/
theorem foldState_nocreate (E : String) :
    ∀ (names : List String) (ctx : MigrationContext),
      (∀ name ∈ names, stateEnvName? name ≠ some E) →
      getFile ctx.fs ("teamsfx/.env." ++ E) = none →
      getFile ((names.foldl processStateFile ctx)).fs ("teamsfx/.env." ++ E) = none := by
  intro names
  induction names with
  | nil => intro ctx _ h; simpa using h
  | cons name rest ih =>
      intro ctx hall h
      simp only [List.foldl_cons]
      apply ih _ (fun n hn => hall n (List.mem_cons_of_mem _ hn))
      rcases henv : stateEnvName? name with _ | envB
      · simpa [processStateFile, henv] using h
      · have hne : envB ≠ E := by
          intro hc
          exact hall name (List.mem_cons_self _ _) (by rw [henv, hc])
        rw [processState_getFile_ne_env ctx name envB _ henv
            (fun hc => hne (env_family_cancel E envB hc).symm)]
        exact h

/-- C5: the state/env conversion step never throws; when `.fx/states`
does not exist it is a no-op; for every directory entry named
`state.<env>.json` whose state document parses, it leaves
`teamsfx/.env.<env>` holding the renamed key/value pairs (renamed using
the infra-template context); and it creates no `.env.<E>` file for an
environment `E` with no matching state file. -/
theorem c5_statesMigration_env_files (ctx : MigrationContext) :
    ((statesMigration ctx).1 = none)
    ∧ (fsPathExists ctx ".fx/states" = false → statesMigration ctx = (none, ctx))
    ∧ (fsPathExists ctx ".fx/states" = true →
       ∀ (env content : String) (obj : StateObj),
         env.data.all isWordChar = true →
         ("state." ++ env ++ ".json") ∈ fsReadDirSync ctx ".fx/states" →
         getFile ctx.fs (".fx/states/state." ++ env ++ ".json") = some content →
         parseStateContent content = some obj →
         getFile (statesMigration ctx).2.fs ("teamsfx/.env." ++ env)
           = some (jsonObjectNamesConvertV3 obj "state." (readBicepContent ctx)))
    ∧ (fsPathExists ctx ".fx/states" = true →
       ∀ E : String,
         (∀ name ∈ fsReadDirSync ctx ".fx/states", stateEnvName? name ≠ some E) →
         getFile ctx.fs ("teamsfx/.env." ++ E) = none →
         getFile (statesMigration ctx).2.fs ("teamsfx/.env." ++ E) = none) := by
  refine ⟨?_, ?_, ?_, ?_⟩
  · unfold statesMigration
    split <;> rfl
  · intro h
    simp [statesMigration, h]
  · intro h env content obj hw hmem hstate hparse
    simp only [statesMigration, h, if_true]
    have hrb : readBicepContent ctx
        = (getFile ctx.fs "templates/azure/provision.bicep").getD "" := by
      unfold readBicepContent
      cases hx : getFile ctx.fs "templates/azure/provision.bicep" <;> rfl
    rw [hrb]
    exact foldState_writes env content obj
      (getFile ctx.fs "templates/azure/provision.bicep") hw
      (fsReadDirSync ctx ".fx/states") ctx hstate hparse rfl (Or.inl hmem)
  · intro h E hall hnone
    simp only [statesMigration, h, if_true]
    exact foldState_nocreate E _ ctx hall hnone

/-- C5 witness: a project with `.fx/states/state.dev.json` gets a
`teamsfx/.env.dev` with the renamed pairs, no `.env.prod` appears, and a
project without `.fx/states` is left untouched. -/
theorem c5_witness :
    getFile (statesMigration
        ⟨⟨[(".fx/states/state.dev.json", "endpoint=https://x"),
           ("templates/azure/provision.bicep", "b")],
          [".fx", ".fx/states"]⟩, ⟨[], []⟩, [], []⟩).2.fs ("teamsfx/.env." ++ "dev")
      = some (jsonObjectNamesConvertV3 [("endpoint", "https://x")] "state."
          (readBicepContent
            ⟨⟨[(".fx/states/state.dev.json", "endpoint=https://x"),
               ("templates/azure/provision.bicep", "b")],
              [".fx", ".fx/states"]⟩, ⟨[], []⟩, [], []⟩))
    ∧ getFile (statesMigration
        ⟨⟨[(".fx/states/state.dev.json", "endpoint=https://x"),
           ("templates/azure/provision.bicep", "b")],
          [".fx", ".fx/states"]⟩, ⟨[], []⟩, [], []⟩).2.fs ("teamsfx/.env." ++ "prod") = none
    ∧ statesMigration ⟨⟨[], []⟩, ⟨[], []⟩, [], []⟩ = (none, ⟨⟨[], []⟩, ⟨[], []⟩, [], []⟩) :=
  ⟨(c5_statesMigration_env_files
      ⟨⟨[(".fx/states/state.dev.json", "endpoint=https://x"),
         ("templates/azure/provision.bicep", "b")],
        [".fx", ".fx/states"]⟩, ⟨[], []⟩, [], []⟩).2.2.1 rfl "dev" "endpoint=https://x"
      [("endpoint", "https://x")] (by decide) (by decide) rfl (by decide),
   (c5_statesMigration_env_files
      ⟨⟨[(".fx/states/state.dev.json", "endpoint=https://x"),
         ("templates/azure/provision.bicep", "b")],
        [".fx", ".fx/states"]⟩, ⟨[], []⟩, [], []⟩).2.2.2 rfl "prod" (by decide) rfl,
   (c5_statesMigration_env_files ⟨⟨[], []⟩, ⟨[], []⟩, [], []⟩).2.1 rfl⟩

/-! ## C6: synthetic helper-task labels -/

theorem mem_le_maxLabelLen : ∀ (xs : List String) (s : String),
    s ∈ xs → s.length ≤ maxLabelLen xs := by
  intro xs
  induction xs with
  | nil => intro s h; cases h
  | cons a t ih =>
      intro s h
      have hfold : maxLabelLen (a :: t) = max a.length (maxLabelLen t) := rfl
      rcases List.mem_cons.mp h with heq | h'
      · subst heq
        rw [hfold]
        exact le_max_left _ _
      · rw [hfold]
        exact le_trans (ih s h') (le_max_right _ _)

theorem generateLabel_not_mem (base : String) (ex : List String) :
    generateLabel base ex ∉ ex := by
  unfold generateLabel
  split
  · intro hmem
    have hlen := mem_le_maxLabelLen ex _ hmem
    rw [String.length_append, String.length_append] at hlen
    have h2 : (String.mk (List.replicate (maxLabelLen ex + 1) '2')).length
        = maxLabelLen ex + 1 := by
      show (List.replicate (maxLabelLen ex + 1) '2').length = _
      exact List.length_replicate _ _
    rw [h2] at hlen
    omega
  · intro hmem
    exact absurd hmem (by assumption)

theorem generateLabel_cases (base : String) (ex : List String) :
    generateLabel base ex = base ∨
    generateLabel base ex
      = base ++ (" #" ++ String.mk (List.replicate (maxLabelLen ex + 1) '2')) := by
  unfold generateLabel
  split
  · right
    rw [String.append_assoc]
  · left
    rfl

theorem strStarts_refl (b : String) : strStarts b b = true := by
  unfold strStarts
  exact List.isPrefixOf_iff_prefix.mpr (List.prefix_refl _)

theorem strStarts_self_append (b x : String) : strStarts (b ++ x) b = true := by
  unfold strStarts
  rw [String.data_append]
  exact List.isPrefixOf_iff_prefix.mpr (List.prefix_append _ _)

theorem generateLabel_starts (base : String) (ex : List String) :
    strStarts (generateLabel base ex) base = true := by
  rcases generateLabel_cases base ex with h | h <;> rw [h]
  · exact strStarts_refl base
  · exact strStarts_self_append _ _

theorem setup_not_starts_create (x : String) :
    strStarts ("Create resources" ++ x) "Set up local projects" = false := by
  unfold strStarts
  rw [String.data_append]
  apply Bool.eq_false_iff.mpr
  intro hpre
  have h := List.isPrefixOf_iff_prefix.mp hpre
  rw [show ("Set up local projects" : String).data
        = 'S' :: ("et up local projects" : String).data from rfl] at h
  rw [show (("Create resources" : String).data ++ x.data)
        = 'C' :: (("reate resources" : String).data ++ x.data) from rfl] at h
  rw [List.cons_prefix_cons] at h
  exact absurd h.1 (by decide)

theorem generateLabel_create_not_setup (ex : List String) :
    strStarts (generateLabel "Create resources" ex) "Set up local projects" = false := by
  rcases generateLabel_cases "Create resources" ex with h | h <;> rw [h]
  · decide
  · exact setup_not_starts_create _

/-- When both helper labels are already cached in `generatedLabels`,
`handleProvisionAndDeploy` reuses them: it inserts no helper task, keeps
`generatedLabels` and the index unchanged, and repoints the removed
task's dependents at the cached labels. -/
theorem handleProvisionAndDeploy_cached (ctxB : DebugMigrationContext) (j : Nat)
    (l2 c s : String)
    (hf1 : ctxB.generatedLabels.find? (fun v => strStarts v "Create resources") = some c)
    (hf2 : ctxB.generatedLabels.find? (fun v => strStarts v "Set up local projects") = some s) :
    (handleProvisionAndDeploy ctxB j l2).1.generatedLabels = ctxB.generatedLabels
    ∧ (handleProvisionAndDeploy ctxB j l2).2 = j
    ∧ (handleProvisionAndDeploy ctxB j l2).1.tasks
        = replaceInDependsOn l2 (eraseAt ctxB.tasks j) [c, s] := by
  refine ⟨?_, ?_, ?_⟩ <;> simp only [handleProvisionAndDeploy, hf1, hf2]

/-- C6: within one sub-pipeline run, the first `handleProvisionAndDeploy`
request synthesizes "Create resources" / "Set up local projects" labels
that collide with no label present in the task list, caches them in
`generatedLabels` and splices the two helper tasks in; every later
request reuses exactly the same cached labels and generates no further
helper task. -/
theorem c6_helper_labels_cached_and_fresh (ctx : DebugMigrationContext) (i : Nat) (l : String)
    (hg : ∀ x ∈ ctx.generatedLabels,
      strStarts x "Create resources" = false ∧ strStarts x "Set up local projects" = false) :
    (generateLabel "Create resources" (getLabels (eraseAt ctx.tasks i))
        ∉ getLabels (eraseAt ctx.tasks i)
     ∧ generateLabel "Set up local projects" (getLabels (eraseAt ctx.tasks i))
        ∉ getLabels (eraseAt ctx.tasks i))
    ∧ (handleProvisionAndDeploy ctx i l).1.generatedLabels
        = ctx.generatedLabels
          ++ [generateLabel "Create resources" (getLabels (eraseAt ctx.tasks i)),
              generateLabel "Set up local projects" (getLabels (eraseAt ctx.tasks i))]
    ∧ (handleProvisionAndDeploy ctx i l).2 = i + 2
    ∧ (handleProvisionAndDeploy ctx i l).1.tasks
        = replaceInDependsOn l
            (insertAt (insertAt (eraseAt ctx.tasks i) i
                (createResourcesTask (generateLabel "Create resources"
                  (getLabels (eraseAt ctx.tasks i)))))
              (i + 1)
              (setUpLocalProjectsTask (generateLabel "Set up local projects"
                (getLabels (eraseAt ctx.tasks i)))))
            [generateLabel "Create resources" (getLabels (eraseAt ctx.tasks i)),
             generateLabel "Set up local projects" (getLabels (eraseAt ctx.tasks i))]
    ∧ (∀ (j : Nat) (l2 : String),
        (handleProvisionAndDeploy (handleProvisionAndDeploy ctx i l).1 j l2).1.generatedLabels
          = (handleProvisionAndDeploy ctx i l).1.generatedLabels
        ∧ (handleProvisionAndDeploy (handleProvisionAndDeploy ctx i l).1 j l2).2 = j
        ∧ (handleProvisionAndDeploy (handleProvisionAndDeploy ctx i l).1 j l2).1.tasks
            = replaceInDependsOn l2
                (eraseAt (handleProvisionAndDeploy ctx i l).1.tasks j)
                [generateLabel "Create resources" (getLabels (eraseAt ctx.tasks i)),
                 generateLabel "Set up local projects" (getLabels (eraseAt ctx.tasks i))]) := by
  have hfind1 : ctx.generatedLabels.find? (fun v => strStarts v "Create resources") = none :=
    List.find?_eq_none.mpr (fun x hx => by rw [(hg x hx).1]; exact Bool.false_ne_true)
  have hfind2 : ctx.generatedLabels.find?
      (fun v => strStarts v "Set up local projects") = none :=
    List.find?_eq_none.mpr (fun x hx => by rw [(hg x hx).2]; exact Bool.false_ne_true)
  have hmain2 : (handleProvisionAndDeploy ctx i l).1.generatedLabels
      = ctx.generatedLabels
        ++ [generateLabel "Create resources" (getLabels (eraseAt ctx.tasks i)),
            generateLabel "Set up local projects" (getLabels (eraseAt ctx.tasks i))] := by
    simp only [handleProvisionAndDeploy, hfind1, hfind2]
  refine ⟨⟨generateLabel_not_mem _ _, generateLabel_not_mem _ _⟩, hmain2, ?_, ?_, ?_⟩
  · simp only [handleProvisionAndDeploy, hfind1, hfind2]
  · simp only [handleProvisionAndDeploy, hfind1, hfind2]
  · intro j l2
    have hf1' : (handleProvisionAndDeploy ctx i l).1.generatedLabels.find?
        (fun v => strStarts v "Create resources")
          = some (generateLabel "Create resources" (getLabels (eraseAt ctx.tasks i))) := by
      rw [hmain2, List.find?_append, hfind1]
      simp [List.find?_cons, generateLabel_starts]
    have hf2' : (handleProvisionAndDeploy ctx i l).1.generatedLabels.find?
        (fun v => strStarts v "Set up local projects")
          = some (generateLabel "Set up local projects" (getLabels (eraseAt ctx.tasks i))) := by
      rw [hmain2, List.find?_append, hfind2]
      simp [List.find?_cons, generateLabel_starts, generateLabel_create_not_setup]
    exact handleProvisionAndDeploy_cached _ j l2 _ _ hf1' hf2'

/-- C6 witness: with a task list that already contains a task labelled
"Create resources", the synthesized label avoids the collision; the
helper tasks are inserted once and the labels cached. -/
theorem c6_witness :
    (generateLabel "Create resources"
        (getLabels (eraseAt [JVal.obj [("label", JVal.str "Create resources")],
          JVal.obj [("label", JVal.str "B"), ("dependsOn", JVal.str "t")]] 1))
      ∉ getLabels (eraseAt [JVal.obj [("label", JVal.str "Create resources")],
          JVal.obj [("label", JVal.str "B"), ("dependsOn", JVal.str "t")]] 1))
    ∧ (handleProvisionAndDeploy
        ⟨⟨⟨[], []⟩, ⟨[], []⟩, [], []⟩,
         [JVal.obj [("label", JVal.str "Create resources")],
          JVal.obj [("label", JVal.str "B"), ("dependsOn", JVal.str "t")]],
         ⟨"pid"⟩, ⟨none, none⟩, ⟨"BE", "BD", "TE", "TD"⟩, [], []⟩ 1 "t").2 = 1 + 2
    ∧ (handleProvisionAndDeploy
        ⟨⟨⟨[], []⟩, ⟨[], []⟩, [], []⟩,
         [JVal.obj [("label", JVal.str "Create resources")],
          JVal.obj [("label", JVal.str "B"), ("dependsOn", JVal.str "t")]],
         ⟨"pid"⟩, ⟨none, none⟩, ⟨"BE", "BD", "TE", "TD"⟩, [], []⟩ 1 "t").1.generatedLabels
      = [] ++ [generateLabel "Create resources"
            (getLabels (eraseAt [JVal.obj [("label", JVal.str "Create resources")],
              JVal.obj [("label", JVal.str "B"), ("dependsOn", JVal.str "t")]] 1)),
          generateLabel "Set up local projects"
            (getLabels (eraseAt [JVal.obj [("label", JVal.str "Create resources")],
              JVal.obj [("label", JVal.str "B"), ("dependsOn", JVal.str "t")]] 1))] := by
  obtain h := c6_helper_labels_cached_and_fresh
    ⟨⟨⟨[], []⟩, ⟨[], []⟩, [], []⟩,
     [JVal.obj [("label", JVal.str "Create resources")],
      JVal.obj [("label", JVal.str "B"), ("dependsOn", JVal.str "t")]],
     ⟨"pid"⟩, ⟨none, none⟩, ⟨"BE", "BD", "TE", "TD"⟩, [], []⟩ 1 "t"
    (by intro x hx; cases hx)
  exact ⟨h.1.1, h.2.2.1, h.2.1⟩

/-! ## C7: bot set-up secret handling -/

/-- C7: in the bot set-up migration, the env map written through
`updateLocalEnv` carries `SECRET_BOT_PASSWORD` with the encrypted value
when `botPassword` is a non-empty literal string, and carries no
`SECRET_BOT_PASSWORD` key at all when `botPassword` is an `${env:NAME}`
reference whose variable is unset — and in both cases `migrateSetUpBot`
completes normally, emitting exactly that map for the matched task. -/
theorem c7_migrateSetUpBot_secret (ctx : DebugMigrationContext) (t : JVal) (lbl : String)
    (pid : String) (penv : List (String × String)) (akvs : List (String × JVal))
    (pwd nm : String) :
    (ctx.tasks = [t] → isSetUpBotTask t = true → taskLabel? t = some lbl →
      (migrateSetUpBot ctx).migrationContext
        = updateLocalEnv ctx.migrationContext
            (setUpBotEnvs ctx.oldProjectSettings.projectId ctx.processEnv (jget t "args")))
    ∧ (List.lookup "botPassword" akvs = some (.str pwd) → pwd ≠ "" →
        envRefName? pwd = none →
        List.lookup "SECRET_BOT_PASSWORD" (setUpBotEnvs pid penv (some (.obj akvs)))
          = some (LocalCrypto.encryptValue pid pwd))
    ∧ (List.lookup "botPassword" akvs = some (.str pwd) → envRefName? pwd = some nm →
        List.lookup nm penv = none →
        List.lookup "SECRET_BOT_PASSWORD" (setUpBotEnvs pid penv (some (.obj akvs)))
          = none) := by
  refine ⟨?_, ?_, ?_⟩
  · intro htasks hbot hlbl
    rcases ctx with ⟨m, tasks, ops, ay, pm, g, pe⟩
    simp only at htasks
    subst htasks
    have hpt : (processSetUpBotTask ⟨m, [t], ops, ay, pm, g, pe⟩ t).tasks = [t] := rfl
    unfold migrateSetUpBot
    rw [migrateSetUpBotGo]
    rw [dif_pos (by simp)]
    simp only [List.get, hbot, if_true, hlbl]
    rcases hf : (processSetUpBotTask
        ⟨m, [t], ops, ay, pm, g, pe⟩ t).generatedLabels.find?
          (fun v => strStarts v "Create resources") with _ | v
    · simp only [handleProvisionAndDeploy, hf]
      rw [migrateSetUpBotGo]
      rw [dif_neg (by
        rw [hpt]
        simp [replaceInDependsOn, insertAt, eraseAt])]
      rfl
    · simp only [handleProvisionAndDeploy, hf]
      rw [migrateSetUpBotGo]
      rw [dif_neg (by
        rw [hpt]
        simp [replaceInDependsOn, insertAt, eraseAt])]
      rfl
  · intro h1 h2 h3
    have h2' : (pwd == "") = false := beq_false_of_ne h2
    simp only [setUpBotEnvs, h1, h2', h3]
    rw [List.lookup_append]
    have hleft : List.lookup "SECRET_BOT_PASSWORD"
        (match List.lookup "botId" akvs with
         | some (.str s) => if s == "" then [] else [("BOT_ID", s)]
         | _ => []) = (none : Option String) := by
      rcases hb : List.lookup "botId" akvs with _ | v
      · rfl
      · cases v with
        | str s =>
            by_cases hs : (s == "") = true
            · simp [hs]
            · simp only [Bool.not_eq_true] at hs
              simp [hs, List.lookup]
        | num n => rfl
        | bool b => rfl
        | null => rfl
        | arr xs => rfl
        | obj kvs => rfl
    rw [hleft]
    simp [LocalCrypto.encrypt, List.lookup]
  · intro h1 h3 h4
    by_cases h2 : (pwd == "") = true
    · simp only [setUpBotEnvs, h1, h2, if_true]
      rw [List.lookup_append]
      have hleft : List.lookup "SECRET_BOT_PASSWORD"
          (match List.lookup "botId" akvs with
           | some (.str s) => if s == "" then [] else [("BOT_ID", s)]
           | _ => []) = (none : Option String) := by
        rcases hb : List.lookup "botId" akvs with _ | v
        · rfl
        · cases v with
          | str s =>
              by_cases hs : (s == "") = true
              · simp [hs]
              · simp only [Bool.not_eq_true] at hs
                simp [hs, List.lookup]
          | num n => rfl
          | bool b => rfl
          | null => rfl
          | arr xs => rfl
          | obj kvs => rfl
      rw [hleft]
      rfl
    · simp only [Bool.not_eq_true] at h2
      simp only [setUpBotEnvs, h1, h2, h3, h4]
      rw [List.lookup_append]
      have hleft : List.lookup "SECRET_BOT_PASSWORD"
          (match List.lookup "botId" akvs with
           | some (.str s) => if s == "" then [] else [("BOT_ID", s)]
           | _ => []) = (none : Option String) := by
        rcases hb : List.lookup "botId" akvs with _ | v
        · rfl
        · cases v with
          | str s =>
              by_cases hs : (s == "") = true
              · simp [hs]
              · simp only [Bool.not_eq_true] at hs
                simp [hs, List.lookup]
          | num n => rfl
          | bool b => rfl
          | null => rfl
          | arr xs => rfl
          | obj kvs => rfl
      rw [hleft]
      rfl

/-- C7 witness: for a concrete set-up-bot task the migrated context is
exactly the env-map write; a literal password "pw" is emitted encrypted
under `SECRET_BOT_PASSWORD`; an `$\x7benv:FOO\x7d` reference with `FOO`
unset emits no `SECRET_BOT_PASSWORD` key. -/
theorem c7_witness :
    (migrateSetUpBot
        ⟨⟨⟨[], []⟩, ⟨[], []⟩, [], []⟩,
         [JVal.obj [("type", JVal.str "teamsfx"), ("command", JVal.str "debug-set-up-bot"),
           ("label", JVal.str "Bot"),
           ("args", JVal.obj [("botId", JVal.str "bid"), ("botPassword", JVal.str "pw")])]],
         ⟨"pid"⟩, ⟨none, none⟩, ⟨"BE", "BD", "TE", "TD"⟩, [], []⟩).migrationContext
      = updateLocalEnv ⟨⟨[], []⟩, ⟨[], []⟩, [], []⟩
          (setUpBotEnvs "pid" []
            (jget (JVal.obj [("type", JVal.str "teamsfx"),
               ("command", JVal.str "debug-set-up-bot"), ("label", JVal.str "Bot"),
               ("args", JVal.obj [("botId", JVal.str "bid"), ("botPassword", JVal.str "pw")])])
              "args"))
    ∧ List.lookup "SECRET_BOT_PASSWORD"
        (setUpBotEnvs "pid" []
          (some (JVal.obj [("botId", JVal.str "bid"), ("botPassword", JVal.str "pw")])))
      = some (LocalCrypto.encryptValue "pid" "pw")
    ∧ List.lookup "SECRET_BOT_PASSWORD"
        (setUpBotEnvs "pid" []
          (some (JVal.obj [("botPassword", JVal.str "$\x7benv:FOO\x7d")])))
      = none := by
  refine ⟨?_, ?_, ?_⟩
  · exact (c7_migrateSetUpBot_secret
      ⟨⟨⟨[], []⟩, ⟨[], []⟩, [], []⟩,
       [JVal.obj [("type", JVal.str "teamsfx"), ("command", JVal.str "debug-set-up-bot"),
         ("label", JVal.str "Bot"),
         ("args", JVal.obj [("botId", JVal.str "bid"), ("botPassword", JVal.str "pw")])]],
       ⟨"pid"⟩, ⟨none, none⟩, ⟨"BE", "BD", "TE", "TD"⟩, [], []⟩
      (JVal.obj [("type", JVal.str "teamsfx"), ("command", JVal.str "debug-set-up-bot"),
        ("label", JVal.str "Bot"),
        ("args", JVal.obj [("botId", JVal.str "bid"), ("botPassword", JVal.str "pw")])])
      "Bot" "pid" [] [] "pw" "FOO").1 rfl rfl rfl
  · exact (c7_migrateSetUpBot_secret
      ⟨⟨⟨[], []⟩, ⟨[], []⟩, [], []⟩, [], ⟨"pid"⟩, ⟨none, none⟩,
       ⟨"BE", "BD", "TE", "TD"⟩, [], []⟩
      JVal.null "Bot" "pid" []
      [("botId", JVal.str "bid"), ("botPassword", JVal.str "pw")] "pw" "FOO").2.1
      rfl (by decide) rfl
  · exact (c7_migrateSetUpBot_secret
      ⟨⟨⟨[], []⟩, ⟨[], []⟩, [], []⟩, [], ⟨"pid"⟩, ⟨none, none⟩,
       ⟨"BE", "BD", "TE", "TD"⟩, [], []⟩
      JVal.null "Bot" "pid" []
      [("botPassword", JVal.str "$\x7benv:FOO\x7d")] "$\x7benv:FOO\x7d" "FOO").2.2
      rfl rfl rfl
